import Mathlib

/-
  Verification development for the odin screen-automation agent
  (src/odin).  The Python modules agent/parser.py, action/safety.py,
  agent/memory.py and agent/core.py are shallowly embedded below:
  Python strings become lists of characters, Python/JSON values become
  the inductive JVal, and Python code that can raise becomes Except.
  External collaborators (the pyautogui backend, the LLM transport, the
  screen, wall-clock time) are modelled as explicit parameters.
-/

/-- Python strings are modelled as lists of characters. -/
abbrev Str := List Char

/-- The opening brace character, by code point. -/
def lbrace : Char := Char.ofNat 123

/-- The closing brace character, by code point. -/
def rbrace : Char := Char.ofNat 125

/-- Python floats are modelled as exact fractions: a numerator over a
    positive denominator, not necessarily reduced, so that all arithmetic
    stays kernel computable.  IEEE rounding is not modelled. -/
structure PyFloat where
  num : Int
  den : Nat
deriving DecidableEq

/-- The float holding an integer. -/
def PyFloat.ofInt (n : Int) : PyFloat := ⟨n, 1⟩

/-- Strict order on the modelled floats, by cross multiplication. -/
def PyFloat.blt (a b : PyFloat) : Bool := a.num * (b.den : Int) < b.num * (a.den : Int)

/-- Non-strict order on the modelled floats, by cross multiplication. -/
def PyFloat.ble (a b : PyFloat) : Bool := a.num * (b.den : Int) ≤ b.num * (a.den : Int)

/-- Difference of two modelled floats. -/
def PyFloat.sub (a b : PyFloat) : PyFloat :=
  ⟨a.num * (b.den : Int) - b.num * (a.den : Int), a.den * b.den⟩

/-- Python values as produced by the json decoder and handed around in
    params dicts: None, bools, ints, floats (kept exact; the three
    non-finite constants the decoder can produce get their own
    constructors), strings, lists, and dicts (association lists, insertion
    ordered, keys distinct). -/
inductive JVal where
  | jnull : JVal
  | jbool (b : Bool) : JVal
  | jint (n : Int) : JVal
  | jfloat (q : PyFloat) : JVal
  | jnan : JVal
  | jinf : JVal
  | jninf : JVal
  | jstr (s : Str) : JVal
  | jarr (xs : List JVal) : JVal
  | jobj (fields : List (Str × JVal)) : JVal

/-- Lookup in a Python dict modelled as an association list. -/
def dictGet? : List (Str × JVal) → Str → Option JVal
  | [], _ => none
  | (k0, v0) :: rest, k => if k0 = k then some v0 else dictGet? rest k

/-- Python dict.get with a default. -/
def dictGetD (fields : List (Str × JVal)) (k : Str) (d : JVal) : JVal :=
  (dictGet? fields k).getD d

/-- Python dict insertion: an existing key keeps its position and gets the
    new value, a new key is appended. -/
def dictInsert : List (Str × JVal) → Str → JVal → List (Str × JVal)
  | [], k, v => [(k, v)]
  | (k0, v0) :: rest, k, v =>
    if k0 = k then (k0, v) :: rest else (k0, v0) :: dictInsert rest k v

/-- Python membership test key in dict, false on non-dicts. -/
def hasKey (v : JVal) (k : Str) : Bool :=
  match v with
  | .jobj fs => (dictGet? fs k).isSome
  | _ => false

/-- Python isinstance(v, dict). -/
def isDict : JVal → Bool
  | .jobj _ => true
  | _ => false

/-
  Model of the Python standard library json module (external to this
  repository): JSONDecoder().raw_decode with default settings, as used by
  agent/parser.py.  Positions in errors are character indices into the
  decoded candidate string.  Lone UTF-16 surrogate escapes are not
  representable as Lean characters and collapse through Char.ofNat.
-/

/-- The kinds of json.JSONDecodeError the modelled decoder raises. -/
inductive ErrKind where
  | expectingValue
  | expectingPropertyName
  | expectingColonDelimiter
  | expectingCommaDelimiter
  | unterminatedString
  | invalidControlCharacter
  | invalidEscape
  | invalidUnicodeEscape
deriving DecidableEq

/-- A decode error: its kind plus the character position it points at. -/
structure DecErr where
  kind : ErrKind
  pos : Nat
deriving DecidableEq

/-- The four characters the json decoder skips as whitespace. -/
def isJsonWs (c : Char) : Bool :=
  c = ' ' || c = '\t' || c = '\n' || c = '\r'

/-- Skip json whitespace, tracking the absolute position. -/
def skipWs : Str → Nat → Str × Nat
  | c :: cs, p => if isJsonWs c then skipWs cs (p + 1) else (c :: cs, p)
  | [], p => ([], p)

/-- Longest leading run of decimal digits, plus the rest. -/
def takeDigits : Str → List Char × Str
  | c :: cs =>
    if c.isDigit then
      let r := takeDigits cs
      (c :: r.1, r.2)
    else ([], c :: cs)
  | [] => ([], [])

/-- Value of a digit string. -/
def digitsVal (ds : List Char) : Nat :=
  ds.foldl (fun a c => a * 10 + (c.toNat - 48)) 0

/-- Value of one hexadecimal digit, none for non-hex characters. -/
def hexVal (c : Char) : Option Nat :=
  if c.isDigit then some (c.toNat - 48)
  else if 97 ≤ c.toNat ∧ c.toNat ≤ 102 then some (c.toNat - 87)
  else if 65 ≤ c.toNat ∧ c.toNat ≤ 70 then some (c.toNat - 55)
  else none

/-- Model of the json scanner number match at a position: the regex
    sign (0 or nonzero-led digits) (optional fraction) (optional exponent);
    none when the regex does not match here.  A match without fraction and
    exponent is a Python int, otherwise a float (kept exact). -/
def parseNumber (cs : Str) (pos : Nat) : Option (JVal × Str × Nat) :=
  let s0 : Bool × Str × Nat :=
    match cs with
    | c :: rest => if c = '-' then (true, rest, pos + 1) else (false, cs, pos)
    | [] => (false, [], pos)
  let neg := s0.1
  let i0 : Option (List Char × Str × Nat) :=
    match s0.2.1 with
    | c :: rest =>
      if c = '0' then some ([c], rest, s0.2.2 + 1)
      else if c.isDigit then
        let t := takeDigits (c :: rest)
        some (t.1, t.2, s0.2.2 + t.1.length)
      else none
    | [] => none
  match i0 with
  | none => none
  | some (intDs, cs2, p2) =>
    let f0 : Option (List Char) × Str × Nat :=
      match cs2 with
      | c :: rest =>
        if c = '.' then
          let t := takeDigits rest
          if t.1.isEmpty then (none, cs2, p2) else (some t.1, t.2, p2 + 1 + t.1.length)
        else (none, cs2, p2)
      | [] => (none, cs2, p2)
    let e0 : Option (Bool × List Char) × Str × Nat :=
      match f0.2.1 with
      | c :: rest =>
        if c = 'e' ∨ c = 'E' then
          match rest with
          | d :: rest2 =>
            if d = '+' ∨ d = '-' then
              let t := takeDigits rest2
              if t.1.isEmpty then (none, f0.2.1, f0.2.2)
              else (some (d = '-', t.1), t.2, f0.2.2 + 2 + t.1.length)
            else
              let t := takeDigits rest
              if t.1.isEmpty then (none, f0.2.1, f0.2.2)
              else (some (false, t.1), t.2, f0.2.2 + 1 + t.1.length)
          | [] => (none, f0.2.1, f0.2.2)
        else (none, f0.2.1, f0.2.2)
      | [] => (none, f0.2.1, f0.2.2)
    match f0.1, e0.1 with
    | none, none =>
      let n : Int := Int.ofNat (digitsVal intDs)
      some (JVal.jint (if neg then -n else n), e0.2.1, e0.2.2)
    | fracDs, expPart =>
      let fd := fracDs.getD []
      let num0 : Int := Int.ofNat (digitsVal intDs * 10 ^ fd.length + digitsVal fd)
      let den0 : Nat := 10 ^ fd.length
      let q : PyFloat :=
        match expPart with
        | some (eneg, eds) =>
          if eneg then ⟨num0, den0 * 10 ^ digitsVal eds⟩
          else ⟨num0 * (10 ^ digitsVal eds : Nat), den0⟩
        | none => ⟨num0, den0⟩
      some (JVal.jfloat (if neg then ⟨-q.num, q.den⟩ else q), e0.2.1, e0.2.2)

/-- Model of the strict json string scanner, entered just after the opening
    quote; startQ is the position of that quote and acc collects decoded
    characters in reverse.  The fuel makes the recursion structural; every
    step consumes input, so length + 1 fuel never runs out. -/
def parseStringBody : Nat → Str → Nat → Nat → List Char → Except DecErr (Str × Str × Nat)
  | 0, _, _, startQ, _ => .error ⟨.unterminatedString, startQ⟩
  | Nat.succ _, [], _, startQ, _ => .error ⟨.unterminatedString, startQ⟩
  | Nat.succ fuel, c :: cs, p, startQ, acc =>
    if c = '"' then .ok (acc.reverse, cs, p + 1)
    else if c = '\\' then
      match cs with
      | [] => .error ⟨.unterminatedString, startQ⟩
      | e :: cs2 =>
        if e = '"' then parseStringBody fuel cs2 (p + 2) startQ ('"' :: acc)
        else if e = '\\' then parseStringBody fuel cs2 (p + 2) startQ ('\\' :: acc)
        else if e = '/' then parseStringBody fuel cs2 (p + 2) startQ ('/' :: acc)
        else if e = 'b' then parseStringBody fuel cs2 (p + 2) startQ (Char.ofNat 8 :: acc)
        else if e = 'f' then parseStringBody fuel cs2 (p + 2) startQ (Char.ofNat 12 :: acc)
        else if e = 'n' then parseStringBody fuel cs2 (p + 2) startQ ('\n' :: acc)
        else if e = 'r' then parseStringBody fuel cs2 (p + 2) startQ (Char.ofNat 13 :: acc)
        else if e = 't' then parseStringBody fuel cs2 (p + 2) startQ ('\t' :: acc)
        else if e = 'u' then
          match cs2 with
          | h1 :: h2 :: h3 :: h4 :: cs3 =>
            match hexVal h1, hexVal h2, hexVal h3, hexVal h4 with
            | some a, some b, some c2, some d =>
              let code := ((a * 16 + b) * 16 + c2) * 16 + d
              if 0xD800 ≤ code ∧ code ≤ 0xDBFF then
                match cs3 with
                | bs :: u :: g1 :: g2 :: g3 :: g4 :: cs4 =>
                  if bs = '\\' ∧ u = 'u' then
                    match hexVal g1, hexVal g2, hexVal g3, hexVal g4 with
                    | some a2, some b2, some c3, some d2 =>
                      let lo := ((a2 * 16 + b2) * 16 + c3) * 16 + d2
                      if 0xDC00 ≤ lo ∧ lo ≤ 0xDFFF then
                        let comb := 0x10000 + (code - 0xD800) * 0x400 + (lo - 0xDC00)
                        parseStringBody fuel cs4 (p + 12) startQ (Char.ofNat comb :: acc)
                      else
                        parseStringBody fuel cs3 (p + 6) startQ (Char.ofNat code :: acc)
                    | _, _, _, _ => .error ⟨.invalidUnicodeEscape, p + 7⟩
                  else parseStringBody fuel cs3 (p + 6) startQ (Char.ofNat code :: acc)
                | _ => parseStringBody fuel cs3 (p + 6) startQ (Char.ofNat code :: acc)
              else parseStringBody fuel cs3 (p + 6) startQ (Char.ofNat code :: acc)
            | _, _, _, _ => .error ⟨.invalidUnicodeEscape, p + 1⟩
          | _ => .error ⟨.invalidUnicodeEscape, p + 1⟩
        else .error ⟨.invalidEscape, p⟩
    else if c.toNat < 32 then .error ⟨.invalidControlCharacter, p⟩
    else parseStringBody fuel cs (p + 1) startQ (c :: acc)

/-- Parser modes of the single-function json scanner: a value, the rest of
    an object after one member, or the rest of an array after one element. -/
inductive JMode where
  | value
  | objRest (fields : List (Str × JVal))
  | arrRest (elems : List JVal)

/-- One-function model of the recursive json scanner.  The fuel bounds the
    depth of value nesting and the number of container members; every
    recursive call strictly consumes input, so length + 1 fuel never runs
    out on the way to an answer. -/
def jrun : Nat → JMode → Str → Nat → Except DecErr (JVal × Str × Nat)
  | 0, _, _, p => .error ⟨.expectingValue, p⟩
  | Nat.succ fuel, .value, cs, pos =>
    match cs with
    | [] => .error ⟨.expectingValue, pos⟩
    | c :: rest =>
      if c = '"' then
        match parseStringBody (rest.length + 1) rest (pos + 1) pos [] with
        | .error e => .error e
        | .ok (s, r, p) => .ok (.jstr s, r, p)
      else if c = lbrace then
        let w := skipWs rest (pos + 1)
        match w.1 with
        | [] => .error ⟨.expectingPropertyName, w.2⟩
        | c2 :: r2 =>
          if c2 = rbrace then .ok (.jobj [], r2, w.2 + 1)
          else if c2 = '"' then
            match parseStringBody (r2.length + 1) r2 (w.2 + 1) w.2 [] with
            | .error e => .error e
            | .ok (key, r3, p3) =>
              let w2 := skipWs r3 p3
              match w2.1 with
              | c3 :: r4 =>
                if c3 = ':' then
                  let w3 := skipWs r4 (w2.2 + 1)
                  match jrun fuel .value w3.1 w3.2 with
                  | .error e => .error e
                  | .ok (v, r5, p5) => jrun fuel (.objRest [(key, v)]) r5 p5
                else .error ⟨.expectingColonDelimiter, w2.2⟩
              | [] => .error ⟨.expectingColonDelimiter, w2.2⟩
          else .error ⟨.expectingPropertyName, w.2⟩
      else if c = '[' then
        let w := skipWs rest (pos + 1)
        match w.1 with
        | c2 :: r2 =>
          if c2 = ']' then .ok (.jarr [], r2, w.2 + 1)
          else
            match jrun fuel .value (c2 :: r2) w.2 with
            | .error e => .error e
            | .ok (v, r3, p3) => jrun fuel (.arrRest [v]) r3 p3
        | [] => .error ⟨.expectingValue, w.2⟩
      else if c = 'n' ∧ cs.take 4 = "null".toList then .ok (.jnull, cs.drop 4, pos + 4)
      else if c = 't' ∧ cs.take 4 = "true".toList then .ok (.jbool true, cs.drop 4, pos + 4)
      else if c = 'f' ∧ cs.take 5 = "false".toList then .ok (.jbool false, cs.drop 5, pos + 5)
      else
        match parseNumber cs pos with
        | some (v, r, p) => .ok (v, r, p)
        | none =>
          if cs.take 3 = "NaN".toList then .ok (.jnan, cs.drop 3, pos + 3)
          else if cs.take 8 = "Infinity".toList then .ok (.jinf, cs.drop 8, pos + 8)
          else if cs.take 9 = "-Infinity".toList then .ok (.jninf, cs.drop 9, pos + 9)
          else .error ⟨.expectingValue, pos⟩
  | Nat.succ fuel, .objRest fields, cs, pos =>
    let w := skipWs cs pos
    match w.1 with
    | [] => .error ⟨.expectingCommaDelimiter, w.2⟩
    | c :: rest =>
      if c = rbrace then .ok (.jobj fields, rest, w.2 + 1)
      else if c = ',' then
        let w2 := skipWs rest (w.2 + 1)
        match w2.1 with
        | c2 :: r2 =>
          if c2 = '"' then
            match parseStringBody (r2.length + 1) r2 (w2.2 + 1) w2.2 [] with
            | .error e => .error e
            | .ok (key, r3, p3) =>
              let w3 := skipWs r3 p3
              match w3.1 with
              | c3 :: r4 =>
                if c3 = ':' then
                  let w4 := skipWs r4 (w3.2 + 1)
                  match jrun fuel .value w4.1 w4.2 with
                  | .error e => .error e
                  | .ok (v, r5, p5) => jrun fuel (.objRest (dictInsert fields key v)) r5 p5
                else .error ⟨.expectingColonDelimiter, w3.2⟩
              | [] => .error ⟨.expectingColonDelimiter, w3.2⟩
          else .error ⟨.expectingPropertyName, w2.2⟩
        | [] => .error ⟨.expectingPropertyName, w2.2⟩
      else .error ⟨.expectingCommaDelimiter, w.2⟩
  | Nat.succ fuel, .arrRest elems, cs, pos =>
    let w := skipWs cs pos
    match w.1 with
    | [] => .error ⟨.expectingCommaDelimiter, w.2⟩
    | c :: rest =>
      if c = ']' then .ok (.jarr elems, rest, w.2 + 1)
      else if c = ',' then
        let w2 := skipWs rest (w.2 + 1)
        match jrun fuel .value w2.1 w2.2 with
        | .error e => .error e
        | .ok (v, r3, p3) => jrun fuel (.arrRest (elems ++ [v])) r3 p3
      else .error ⟨.expectingCommaDelimiter, w.2⟩

/-- Model of json.JSONDecoder().raw_decode: decode one value starting at
    index zero, ignore what follows.  The source discards the end index, so
    only the value is returned. -/
def json_raw_decode (cs : Str) : Except DecErr JVal :=
  match jrun (cs.length + 1) .value cs 0 with
  | .error e => .error e
  | .ok (v, _, _) => .ok v

/-
  Embedding of src/odin/agent/parser.py.
-/

/-- Dict keys used by the parser and the agent, as character lists. -/
def actionKey : Str := "action".toList

/-- The params key. -/
def paramsKey : Str := "params".toList

/-- The thought key. -/
def thoughtKey : Str := "thought".toList

/-- The x coordinate key. -/
def xKey : Str := "x".toList

/-- The y coordinate key. -/
def yKey : Str := "y".toList

/-- The keys key of hotkey actions. -/
def keysKey : Str := "keys".toList

/-- The direction key of scroll actions. -/
def directionKey : Str := "direction".toList

/-- The seconds key of wait actions. -/
def secondsKey : Str := "seconds".toList

/-- The text key of type actions. -/
def textKey : Str := "text".toList

/-- The result key of done actions. -/
def resultKey : Str := "result".toList

/-- The success key of done actions. -/
def successKey : Str := "success".toList

/-- The ActionType literal of parser.py: the eight action kinds. -/
inductive ActionType where
  | click
  | double_click
  | move
  | type
  | hotkey
  | scroll
  | wait
  | done
deriving DecidableEq

/-- The member of valid_actions a lowercased string names, if any: model of
    the membership test in parse_llm_response. -/
def actionTypeOfStr (s : Str) : Option ActionType :=
  if s = "click".toList then some .click
  else if s = "double_click".toList then some .double_click
  else if s = "move".toList then some .move
  else if s = "type".toList then some .type
  else if s = "hotkey".toList then some .hotkey
  else if s = "scroll".toList then some .scroll
  else if s = "wait".toList then some .wait
  else if s = "done".toList then some .done
  else none

/-- The literal name of an action kind, as parser.py spells it. -/
def ActionType.name : ActionType → Str
  | .click => "click".toList
  | .double_click => "double_click".toList
  | .move => "move".toList
  | .type => "type".toList
  | .hotkey => "hotkey".toList
  | .scroll => "scroll".toList
  | .wait => "wait".toList
  | .done => "done".toList

/-- The ParsedAction dataclass.  The source stores thought as
    str(data.get("thought", "")); the str() coercion is kept as the raw
    value since no checked behaviour depends on it. -/
structure ParsedAction where
  thought : JVal
  action : ActionType
  params : List (Str × JVal)
  raw_response : Str

/-- The ParseError messages parse_llm_response can raise, as structured
    values carrying the information the source interpolates into the
    message text. -/
inductive PErr where
  | invalidJson (e : DecErr)
  | noJsonFound (preview : Str)
  | missingActionField
  | actionNotString
  | unknownAction (a : Str)
  | paramsNotObject
deriving DecidableEq

/-- Positions of opening braces in scan order: model of the re.finditer
    loop of extract_json_object. -/
def bracePositionsAux : Str → Nat → List Nat
  | [], _ => []
  | c :: cs, i =>
    if c = lbrace then i :: bracePositionsAux cs (i + 1) else bracePositionsAux cs (i + 1)

/-- Positions of opening braces of a response, in scan order. -/
def bracePositions (cs : Str) : List Nat := bracePositionsAux cs 0

/-- The loop state of extract_json_object. -/
structure ExtractAcc where
  parsed_objects : List JVal
  first_decode_error : Option DecErr
  found_json_start : Bool

/-- One iteration of the loop of extract_json_object at one brace
    position. -/
def extractStep (response : Str) (acc : ExtractAcc) (p : Nat) : ExtractAcc :=
  let acc := { acc with found_json_start := true }
  match json_raw_decode (response.drop p) with
  | .error exc =>
    { acc with
      first_decode_error :=
        match acc.first_decode_error with
        | none => some exc
        | some e => some e }
  | .ok parsed =>
    if isDict parsed then { acc with parsed_objects := acc.parsed_objects ++ [parsed] }
    else acc

/-- Embedding of parser._extract_json_object (the Python name carries a
    leading underscore): scan every opening brace, attempt a streaming
    decode at each, then pick the first collected dict holding an action
    key, else the first collected dict; raise when nothing was collected. -/
def extract_json_object (response : Str) : Except PErr JVal :=
  let acc := (bracePositions response).foldl (extractStep response) ⟨[], none, false⟩
  match acc.parsed_objects with
  | [] =>
    match acc.found_json_start, acc.first_decode_error with
    | true, some e => .error (.invalidJson e)
    | _, _ => .error (.noJsonFound (response.take 200))
  | o :: rest =>
    match (o :: rest).find? (fun v => hasKey v actionKey) with
    | some v => .ok v
    | none => .ok o

/-- Python str.lower, adequate for the ascii action names involved. -/
def pyLowerStr (s : Str) : Str := s.map Char.toLower

/-- Embedding of parser.parse_llm_response: extract a json object, then
    check the action field is a string naming one of the eight kinds (after
    lowercasing) and params, when present, is a dict. -/
def parse_llm_response (response : Str) : Except PErr ParsedAction :=
  match extract_json_object response with
  | .error e => .error e
  | .ok data =>
    match data with
    | .jobj fields =>
      match dictGet? fields actionKey with
      | none => .error .missingActionField
      | some av =>
        match av with
        | .jstr s =>
          match actionTypeOfStr (pyLowerStr s) with
          | none => .error (.unknownAction (pyLowerStr s))
          | some act =>
            match dictGetD fields paramsKey (.jobj []) with
            | .jobj params =>
              .ok { thought := dictGetD fields thoughtKey (.jstr []),
                    action := act, params := params, raw_response := response }
            | _ => .error .paramsNotObject
        | _ => .error .actionNotString
    | _ => .error .missingActionField

/-- Python exceptions the embedded code can raise past its own signature. -/
inductive PyExc where
  | attributeError
  | typeError
deriving DecidableEq

/-- The validation failure reasons of validate_action_params, as structured
    values carrying what the source interpolates into the reason text. -/
inductive VErr where
  | missingParam (p : Str) (a : ActionType)
  | coordsNotInt
  | keysNotList
  | badDirection
deriving DecidableEq

/-- The static required-parameter table of validate_action_params. -/
def required_params : ActionType → List Str
  | .click => [xKey, yKey]
  | .double_click => [xKey, yKey]
  | .move => [xKey, yKey]
  | .type => [textKey]
  | .hotkey => [keysKey]
  | .scroll => [directionKey]
  | .wait => [secondsKey]
  | .done => [resultKey]

/-- First required parameter missing from params, in table order: models the
    for loop over required params. -/
def firstMissing (params : List (Str × JVal)) : List Str → Option Str
  | [] => none
  | k :: ks => if (dictGet? params k).isNone then some k else firstMissing params ks

/-- Python isinstance(v, int): ints and bools (bool is a subclass of int);
    an absent value is None, which is not an int. -/
def isInstInt : Option JVal → Bool
  | some (.jint _) => true
  | some (.jbool _) => true
  | _ => false

/-- Python isinstance(v, list); an absent value is None. -/
def isInstList : Option JVal → Bool
  | some (.jarr _) => true
  | _ => false

/-- Python v.lower(): defined on strings, AttributeError on anything else. -/
def pyLower (v : JVal) : Except PyExc Str :=
  match v with
  | .jstr s => .ok (pyLowerStr s)
  | _ => .error .attributeError

/-- Embedding of parser.validate_action_params: the required-field loop,
    then the per-kind type checks.  The scroll branch calls lower() on the
    present direction value, so it raises AttributeError when that value is
    not a string; this is modelled in the Except layer. -/
def validate_action_params (a : ParsedAction) : Except PyExc (Bool × Option VErr) :=
  match firstMissing a.params (required_params a.action) with
  | some p => .ok (false, some (.missingParam p a.action))
  | none =>
    if a.action = .click ∨ a.action = .double_click ∨ a.action = .move then
      if isInstInt (dictGet? a.params xKey) ∧ isInstInt (dictGet? a.params yKey) then
        .ok (true, none)
      else .ok (false, some .coordsNotInt)
    else if a.action = .hotkey then
      if isInstList (dictGet? a.params keysKey) then .ok (true, none)
      else .ok (false, some .keysNotList)
    else if a.action = .scroll then
      match pyLower (dictGetD a.params directionKey (.jstr [])) with
      | .error e => .error e
      | .ok d =>
        if d = "up".toList ∨ d = "down".toList ∨ d = "left".toList ∨ d = "right".toList then
          .ok (true, none)
        else .ok (false, some .badDirection)
    else .ok (true, none)

/-
  Claim-side (spec-worded) descriptions of the json extraction, to be
  compared with the source-structured fold above.
-/

/-- The ok value of an Except, dropping the error. -/
def exceptToOption : Except e a → Option a
  | .ok v => some v
  | .error _ => none

/-- Claim side: the decode attempt at one brace position, kept exactly when
    it yields a json object. -/
def decodedObjAt (response : Str) (p : Nat) : Option JVal :=
  match json_raw_decode (response.drop p) with
  | .ok v => if isDict v then some v else none
  | .error _ => none

/-- Claim side: the decode error at one brace position, if the attempt
    fails. -/
def decodeErrAt (response : Str) (p : Nat) : Option DecErr :=
  match json_raw_decode (response.drop p) with
  | .error e => some e
  | .ok _ => none

/-- Claim side: every syntactically valid json object collected over the
    brace positions, in scan order. -/
def collectedObjects (response : Str) : List JVal :=
  (bracePositions response).filterMap (decodedObjAt response)

/-- Claim side: the first decode error encountered over the brace
    positions, in scan order. -/
def firstDecodeError (response : Str) : Option DecErr :=
  ((bracePositions response).filterMap (decodeErrAt response)).head?

/-- Claim side: the selection rule of the spec, word for word: the first
    collected object containing an action key, else the first collected
    object. -/
def extractSpec (response : Str) : Option JVal :=
  match (collectedObjects response).find? (fun v => hasKey v actionKey) with
  | some v => some v
  | none => (collectedObjects response).head?

/-
  Embedding of src/odin/action/safety.py.  pyautogui.size() becomes
  explicit width/height parameters fixed at construction, time.time()
  an explicit now argument, and the mutable pair
  (_action_times, _last_action_time) an explicit SafetyState threaded
  through the calls.
-/

/-- The SafetyConfig dataclass with its defaults. -/
structure SafetyConfig where
  max_actions_per_minute : Nat := 60
  min_action_delay : PyFloat := ⟨1, 10⟩
  require_confirmation : Bool := false
  bounds_margin : Int := 10

/-- The mutable rate-limit state of a SafetyController. -/
structure SafetyState where
  action_times : List PyFloat
  last_action_time : PyFloat

/-- Safety verdict reasons, as structured values carrying what the source
    interpolates into the reason text (the failing coordinate for bounds
    violations). -/
inductive SafetyMsg where
  | rateLimitExceeded
  | minDelayNotMet
  | xTooClose (x : JVal)
  | yTooClose (y : JVal)

/-- Numeric views of Python values for ordering comparisons: ints, bools
    (0/1) and floats are finite, the decoder constants give infinities and
    nan; anything else raises TypeError when compared. -/
inductive NumV where
  | fin (q : PyFloat)
  | pinf
  | ninf
  | nan

/-- Coerce a Python value to its numeric view for a comparison, raising
    TypeError exactly when Python would on an ordering comparison with an
    int. -/
def toNum : JVal → Except PyExc NumV
  | .jint n => .ok (.fin (PyFloat.ofInt n))
  | .jbool b => .ok (.fin (PyFloat.ofInt (if b then 1 else 0)))
  | .jfloat q => .ok (.fin q)
  | .jnan => .ok .nan
  | .jinf => .ok .pinf
  | .jninf => .ok .ninf
  | _ => .error .typeError

/-- v < b against an integer bound; nan comparisons are false. -/
def numLt : NumV → Int → Bool
  | .fin q, b => q.blt (PyFloat.ofInt b)
  | .pinf, _ => false
  | .ninf, _ => true
  | .nan, _ => false

/-- b <= v against an integer bound; nan comparisons are false. -/
def numGe : NumV → Int → Bool
  | .fin q, b => (PyFloat.ofInt b).ble q
  | .pinf, _ => true
  | .ninf, _ => false
  | .nan, _ => false

/-- Embedding of SafetyController.validate_coordinates.  The source
    compares x first, so a TypeError for a non-numeric x is raised before y
    is looked at, and y is never inspected when x is already out of
    bounds. -/
def validate_coordinates (cfg : SafetyConfig) (width height : Int) (x y : JVal) :
    Except PyExc (Bool × Option SafetyMsg) :=
  let margin := cfg.bounds_margin
  match toNum x with
  | .error e => .error e
  | .ok xv =>
    if numLt xv margin || numGe xv (width - margin) then
      .ok (false, some (.xTooClose x))
    else
      match toNum y with
      | .error e => .error e
      | .ok yv =>
        if numLt yv margin || numGe yv (height - margin) then
          .ok (false, some (.yTooClose y))
        else .ok (true, none)

/-- Embedding of SafetyController.check_rate_limit: lazily evict entries
    older than sixty seconds (this mutates the stored list), then test the
    per-minute ceiling and the minimum inter-action delay. -/
def check_rate_limit (cfg : SafetyConfig) (now : PyFloat) (s : SafetyState) :
    (Bool × Option SafetyMsg) × SafetyState :=
  let times := s.action_times.filter (fun t => (now.sub t).blt (PyFloat.ofInt 60))
  let s := { s with action_times := times }
  if cfg.max_actions_per_minute ≤ times.length then
    ((false, some .rateLimitExceeded), s)
  else if (now.sub s.last_action_time).blt cfg.min_action_delay then
    ((false, some .minDelayNotMet), s)
  else ((true, none), s)

/-- Embedding of SafetyController.record_action. -/
def record_action (now : PyFloat) (s : SafetyState) : SafetyState :=
  { action_times := s.action_times ++ [now], last_action_time := now }

/-- The start_x key of drag actions. -/
def startXKey : Str := "start_x".toList

/-- The start_y key of drag actions. -/
def startYKey : Str := "start_y".toList

/-- The end_x key of drag actions. -/
def endXKey : Str := "end_x".toList

/-- The end_y key of drag actions. -/
def endYKey : Str := "end_y".toList

/-- The drag leg of SafetyController.validate_action (the second of its
    two sequential position checks), followed by the final admit. -/
def validate_action_dragLeg (cfg : SafetyConfig) (width height : Int) (s : SafetyState)
    (action : Str) (params : List (Str × JVal)) :
    Except PyExc ((Bool × Option SafetyMsg) × SafetyState) :=
  if action = "drag".toList then
    match validate_coordinates cfg width height
        (dictGetD params startXKey (.jint 0)) (dictGetD params startYKey (.jint 0)) with
    | .error e => .error e
    | .ok r1 =>
      if ¬r1.1 then .ok ((false, r1.2), s)
      else
        match validate_coordinates cfg width height
            (dictGetD params endXKey (.jint 0)) (dictGetD params endYKey (.jint 0)) with
        | .error e => .error e
        | .ok r2 =>
          if ¬r2.1 then .ok ((false, r2.2), s)
          else .ok ((true, none), s)
  else .ok ((true, none), s)

/-- Embedding of SafetyController.validate_action: rate limit first (its
    lazy eviction mutates the stored times even on denial), then bounds
    checks for the position-bearing kinds, with missing coordinates
    defaulted to the int 0 by params.get. -/
def validate_action (cfg : SafetyConfig) (width height : Int) (s : SafetyState)
    (now : PyFloat) (action : Str) (params : List (Str × JVal)) :
    Except PyExc ((Bool × Option SafetyMsg) × SafetyState) :=
  let rl := check_rate_limit cfg now s
  if ¬rl.1.1 then .ok ((false, rl.1.2), rl.2)
  else if action = "click".toList ∨ action = "double_click".toList ∨ action = "move".toList then
    match validate_coordinates cfg width height
        (dictGetD params xKey (.jint 0)) (dictGetD params yKey (.jint 0)) with
    | .error e => .error e
    | .ok r =>
      if ¬r.1 then .ok ((false, r.2), rl.2)
      else validate_action_dragLeg cfg width height rl.2 action params
  else validate_action_dragLeg cfg width height rl.2 action params

/-
  Embedding of src/odin/agent/memory.py.
-/

/-- A conversation message: a role plus content.  The content type is a
    parameter since the store treats it opaquely. -/
structure Message (α : Type) where
  role : Str
  content : α
deriving DecidableEq

/-- The system role string. -/
def sysRole : Str := "system".toList

/-- The assistant role string. -/
def assistantRole : Str := "assistant".toList

/-- Python list slicing l[i:] for an arbitrary signed start index: a
    negative start counts from the end and clamps at zero, a non-negative
    start clamps at the length. -/
def pySuffix (l : List α) (i : Int) : List α :=
  if i < 0 then l.drop (l.length - i.natAbs) else l.drop i.toNat

/-- The n most recent entries of a list (claim-side wording). -/
def lastN (n : Nat) (l : List α) : List α := l.drop (l.length - n)

/-- Embedding of AgentMemory.add_message with the configured cap as an
    explicit argument: append, then trim using the negative-index slices of
    the source, keeping a leading system message when the first entry has
    the system role. -/
def add_message (cap : Int) (msgs : List (Message α)) (m : Message α) :
    List (Message α) :=
  let msgs := msgs ++ [m]
  if cap < (msgs.length : Int) then
    match msgs with
    | m0 :: _ =>
      if m0.role = sysRole then m0 :: pySuffix msgs (-(cap - 1))
      else pySuffix msgs (-cap)
    | [] => pySuffix msgs (-cap)
  else msgs

/-- Embedding of AgentMemory.add_screenshot with the cap explicit;
    screenshots are opaque handles. -/
def add_screenshot (cap : Int) (shots : List α) (img : α) : List α :=
  let shots := shots ++ [img]
  if cap < (shots.length : Int) then pySuffix shots (-cap) else shots

/-- The default message cap of AgentMemory. -/
def defaultMaxMessages : Int := 20

/-- The default screenshot cap of AgentMemory. -/
def defaultMaxScreenshots : Int := 5

/-
  Aliasing model for AgentMemory.get_conversation_for_llm.  The method
  returns self.messages.copy(): a new list object whose elements are the
  stored message dicts themselves.  To state what caller mutation can and
  cannot reach, list objects and message dicts live in explicit heaps
  addressed by naturals, with an allocation counter; live addresses sit
  below the counter.
-/

/-- A message dict on the heap. -/
structure MsgObj where
  role : Str
  content : Str
deriving DecidableEq

/-- Heaps of list objects (each a list of dict addresses) and of message
    dicts, plus the allocation counter. -/
structure PyHeap where
  lists : Nat → List Nat
  dicts : Nat → MsgObj
  nextAddr : Nat

/-- Point update of a heap function. -/
def setAt (f : Nat → β) (a : Nat) (v : β) : Nat → β :=
  fun x => if x = a then v else f x

/-- Embedding of AgentMemory.get_conversation_for_llm over the heap model:
    allocate a fresh list object holding the same dict addresses as the
    store list, and hand its address back. -/
def get_conversation_for_llm (h : PyHeap) (memList : Nat) : PyHeap × Nat :=
  ({ h with lists := setAt h.lists h.nextAddr (h.lists memList),
            nextAddr := h.nextAddr + 1 }, h.nextAddr)

/-- The message sequence denoted by the list object at an address. -/
def readMessages (h : PyHeap) (a : Nat) : List MsgObj :=
  (h.lists a).map h.dicts

/-- A caller mutating their own list object in place (append, remove,
    slot assignment): a list-heap update at its address. -/
def listMutate (h : PyHeap) (a : Nat) (contents : List Nat) : PyHeap :=
  { h with lists := setAt h.lists a contents }

/-- A caller mutating one message dict in place: a dict-heap update. -/
def dictMutate (h : PyHeap) (a : Nat) (v : MsgObj) : PyHeap :=
  { h with dicts := setAt h.dicts a v }

/-
  Embedding of src/odin/agent/core.py.  External collaborators become an
  explicit environment: the screen capture (screenshots are opaque handles),
  the LLM transport (per step a response text or a raised exception text),
  the action controller, wall-clock readings for the successive time.time()
  calls of the safety layer, the screen size, and the optional on_step
  observer.  The observer is arbitrary Python; its modelled effect is the
  one agent-state interaction the checked claims involve, namely possibly
  requesting a stop.  time.sleep is time-only and has no effect in the
  model, and the wall-clock duration field of AgentResult is not modelled.
-/

/-- The AgentStatus enum. -/
inductive AgentStatus where
  | idle
  | running
  | completed
  | failed
  | stopped
deriving DecidableEq

/-- The ActionResult dataclass of action/controller.py, as the loop
    observes it coming back from the executor. -/
structure ActionResult where
  success : Bool
  action : Str
  message : Option Str
  error : Option Str

/-- Python a or b on optional strings: the first operand unless falsy
    (None or the empty string). -/
def pyOrStr (a b : Option Str) : Option Str :=
  match a with
  | some s => if s.isEmpty then b else some s
  | none => b

/-- An ActionRecord of memory.py; the timestamp field is wall-clock and not
    modelled. -/
structure ActionRecord where
  action : ParsedAction
  success : Bool
  result_message : Option Str

/-- Content of the synthesized conversation messages the loop appends, as
    structured values carrying what the source interpolates into the
    f-string texts. -/
inductive MsgContent where
  | parseErrorFeedback (e : PErr)
  | invalidActionFeedback (e : Option VErr)
  | safetyBlockedFeedback (e : Option SafetyMsg)
  | executedFeedback (a : ActionType) (success : Bool) (m : Option Str)

/-- The AgentResult record.  On the done exit, success and message are
    whatever Python values the done params carried (the dataclass does not
    enforce bool/str), so both fields hold JVal; the fixed texts of the
    other exits appear as string values. -/
structure AgentResult where
  success : JVal
  message : JVal
  total_steps : Nat
  actions_executed : Nat
  final_screenshot : Option Nat

/-- The AgentConfig fields the loop semantics depends on; step_delay only
    feeds time.sleep and the screenshot toggles only feed the unmodelled
    image pipeline. -/
structure AgentConfig where
  max_steps : Nat := 50
  safety : SafetyConfig := {}

/-- The environment of one run: the external collaborators. -/
structure Env where
  capture : Nat → Except Str Nat
  oracle : Nat → Except Str Str
  exec : ParsedAction → ActionResult
  clock : Nat → PyFloat
  width : Int
  height : Int
  onStep : Option (Nat → ParsedAction → Bool)

/-- The mutable state of a run: the Python step variable, the stop flag,
    the three memory collections, the safety state, the count of
    time.time() calls made so far (indexing the clock), and the last
    captured screenshot. -/
structure AgentState where
  step : Nat
  stopRequested : Bool
  messages : List (Message MsgContent)
  actions : List ActionRecord
  screenshots : List Nat
  safety : SafetyState
  tick : Nat
  finalScreenshot : Option Nat

/-- The fixed result message of exhausting max_steps. -/
def msgMaxSteps : Str := "Max steps reached".toList

/-- The fixed result message of a requested stop. -/
def msgStopped : Str := "Stopped by user".toList

/-- The default result message of a done action without a result param. -/
def msgTaskCompleted : Str := "Task completed".toList

/-- The LLM-error result message around the exception text. -/
def msgLLMError (e : Str) : Str := "LLM error: ".toList ++ e

/-- The unexpected-error result message around an exception text. -/
def msgUnexpectedTxt (e : Str) : Str := "Unexpected error: ".toList ++ e

/-- The text of a modelled Python exception (abbreviated to its type
    name). -/
def pyExcText : PyExc → Str
  | .attributeError => "AttributeError".toList
  | .typeError => "TypeError".toList

/-- The unexpected-error result message around a modelled exception. -/
def msgUnexpectedExc (e : PyExc) : Str := msgUnexpectedTxt (pyExcText e)

/-- The AgentResult of the non-done exits, from the state at the return. -/
def mkResult (success message : JVal) (st : AgentState) : AgentResult :=
  { success := success, message := message, total_steps := st.step,
    actions_executed := st.actions.length, final_screenshot := st.finalScreenshot }

/-- The after-loop return: STOPPED when a stop was requested, otherwise
    FAILED with the max-steps message. -/
def loopExit (st : AgentState) : AgentStatus × AgentResult :=
  if st.stopRequested then (.stopped, mkResult (.jbool false) (.jstr msgStopped) st)
  else (.failed, mkResult (.jbool false) (.jstr msgMaxSteps) st)

/-- Append a synthesized assistant message to memory, with the default cap
    of AgentMemory. -/
def addAssistantMsg (st : AgentState) (c : MsgContent) : AgentState :=
  { st with messages := add_message defaultMaxMessages st.messages ⟨assistantRole, c⟩ }

/-- What one loop iteration does: return from run, or continue with a new
    state. -/
inductive StepOut where
  | exit (s : AgentStatus) (r : AgentResult)
  | next (st : AgentState)

/-- One iteration of the while loop of Agent.run, entered after the loop
    condition held: increment step, capture (a raised capture error is an
    uncaught fault, caught by the top-level handler), ask the oracle (a
    raised oracle error is terminal with the LLM-error message), parse
    (a ParseError only appends corrective feedback), validate (an
    exception out of validation is an uncaught fault; an invalid verdict
    only appends feedback), return on done, safety-check, execute, record
    the outcome, append the summary message, and notify the observer. -/
def runBody (env : Env) (cfg : AgentConfig) (st0 : AgentState) : StepOut :=
  let st := { st0 with step := st0.step + 1 }
  match env.capture st.step with
  | .error e => .exit .failed (mkResult (.jbool false) (.jstr (msgUnexpectedTxt e)) st)
  | .ok shot =>
    let st := { st with
      screenshots := add_screenshot defaultMaxScreenshots st.screenshots shot,
      finalScreenshot := some shot }
    match env.oracle st.step with
    | .error e => .exit .failed (mkResult (.jbool false) (.jstr (msgLLMError e)) st)
    | .ok content =>
      match parse_llm_response content with
      | .error pe => .next (addAssistantMsg st (.parseErrorFeedback pe))
      | .ok action =>
        match validate_action_params action with
        | .error exc =>
          .exit .failed (mkResult (.jbool false) (.jstr (msgUnexpectedExc exc)) st)
        | .ok (valid, verr) =>
          if ¬valid then .next (addAssistantMsg st (.invalidActionFeedback verr))
          else if action.action = .done then
            .exit .completed
              { success := dictGetD action.params successKey (.jbool true),
                message := dictGetD action.params resultKey (.jstr msgTaskCompleted),
                total_steps := st.step, actions_executed := st.actions.length,
                final_screenshot := st.finalScreenshot }
          else
            let now := env.clock st.tick
            let st := { st with tick := st.tick + 1 }
            match validate_action cfg.safety env.width env.height st.safety now
                action.action.name action.params with
            | .error exc =>
              .exit .failed (mkResult (.jbool false) (.jstr (msgUnexpectedExc exc)) st)
            | .ok (verdict, s2) =>
              let st := { st with safety := s2 }
              if ¬verdict.1 then .next (addAssistantMsg st (.safetyBlockedFeedback verdict.2))
              else
                let result := env.exec action
                let now2 := env.clock st.tick
                let st := { st with tick := st.tick + 1 }
                let st := { st with safety := record_action now2 st.safety }
                let rec0 : ActionRecord :=
                  ⟨action, result.success, pyOrStr result.message result.error⟩
                let st := { st with actions := st.actions ++ [rec0] }
                let st := addAssistantMsg st
                  (.executedFeedback action.action result.success
                    (pyOrStr result.message result.error))
                let st :=
                  match env.onStep with
                  | some f => { st with stopRequested := st.stopRequested || f st.step action }
                  | none => st
                .next st

/-- The while loop of Agent.run as fuel recursion: the fuel is the number
    of iterations max_steps still allows, so step < max_steps is the fuel
    pattern, and the stop flag is tested at the top of each iteration. -/
def runAux (env : Env) (cfg : AgentConfig) : Nat → AgentState → AgentStatus × AgentResult
  | 0, st => loopExit st
  | Nat.succ fuel, st =>
    if st.stopRequested then loopExit st
    else
      match runBody env cfg st with
      | .exit s r => (s, r)
      | .next st2 => runAux env cfg fuel st2

/-- The run state after memory.clear(): step zero, no stop request, empty
    collections, the safety state as at controller construction. -/
def initState : AgentState :=
  { step := 0, stopRequested := false, messages := [], actions := [],
    screenshots := [], safety := { action_times := [], last_action_time := ⟨0, 1⟩ },
    tick := 0, finalScreenshot := none }

/-- Embedding of Agent.run: the loop from cleared memory with max_steps
    iterations of fuel. -/
def run (env : Env) (cfg : AgentConfig) : AgentStatus × AgentResult :=
  runAux env cfg cfg.max_steps initState

/-- A scratch environment for concrete runs. -/
def envOf (responses : Nat → Except Str Str) : Env :=
  { capture := fun k => .ok k, oracle := responses,
    exec := fun _ => { success := true, action := [], message := some "ok".toList, error := none },
    clock := fun t => ⟨100 + (t : Int), 1⟩, width := 1000, height := 800, onStep := none }

/-
  Claim C1.
-/

/-- The failing input of claim C1: a scroll action whose direction value is
    the int 5, so the required-field loop passes (direction is present) but
    the value is not a string. -/
def scrollBadDirection : ParsedAction :=
  { thought := .jstr [], action := .scroll,
    params := [(directionKey, .jint 5)], raw_response := [] }

/-- The concrete store of the C9 counterexample and witness: one message
    dict at address 0, the store list at address 0 holding it, next free
    address 1. -/
def heapC9 : PyHeap :=
  { lists := fun a => if a = 0 then [0] else [],
    dicts := fun _ => { role := "user".toList, content := "hi".toList },
    nextAddr := 1 }

/-
  Claim C10.
-/

/-- True on the ok side of an Except. -/
def isOkB : Except e a → Bool
  | .ok _ => true
  | .error _ => false

/-- The coordinate parameter keys validate_action reads for an action
    name: x/y for the click family, the two endpoint pairs for drag,
    nothing otherwise. -/
def coordKeysOf (action : Str) : List Str :=
  if action = "click".toList ∨ action = "double_click".toList ∨ action = "move".toList then
    [xKey, yKey]
  else if action = "drag".toList then [startXKey, startYKey, endXKey, endYKey]
  else []

/-- True on the bounds-violation verdicts of the Safety Governor. -/
def isBoundsMsg : SafetyMsg → Bool
  | .xTooClose _ => true
  | .yTooClose _ => true
  | _ => false

/-- Numeric-or-absent side condition on one coordinate key of a params
    dict. -/
def coordOkAt (params : List (Str × JVal)) (k : Str) : Bool :=
  match dictGet? params k with
  | some v => isOkB (toNum v)
  | none => true

/-- The fresh rate-limit state of a just-constructed SafetyController. -/
def freshSafetyState : SafetyState := { action_times := [], last_action_time := ⟨0, 1⟩ }

/-
  Claims C3 and C4.
-/

/-- Python: keep the first recorded error. -/
def firstSome (e0 e1 : Option DecErr) : Option DecErr :=
  match e0 with
  | some e => some e
  | none => e1

/-- An oracle response the loop survives: it fails to parse, or parses to
    an action that validation rejects with a reason, or parses to a valid
    non-done action. -/
def nonExitingResponse (c : Str) : Prop :=
  (∃ pe, parse_llm_response c = .error pe)
  ∨ (∃ a, parse_llm_response c = .ok a ∧
      ((∃ e, validate_action_params a = .ok (false, some e))
       ∨ (validate_action_params a = .ok (true, none) ∧ a.action ≠ .done)))

/-- The done response used by the concrete run scenarios. -/
def doneJson : Str :=
  "\x7b\"action\": \"done\", \"params\": \x7b\"result\": \"ok\", \"success\": true\x7d\x7d".toList

/-- What parse_llm_response yields on doneJson. -/
def parsedDone : ParsedAction :=
  { thought := .jstr [], action := .done,
    params := [(resultKey, .jstr "ok".toList), (successKey, .jbool true)],
    raw_response := doneJson }

/-- The click response used by the concrete max-steps scenario. -/
def clickJson : Str :=
  "\x7b\"action\": \"click\", \"params\": \x7b\"x\": 500, \"y\": 300\x7d\x7d".toList

/-- What parse_llm_response yields on clickJson. -/
def parsedClick : ParsedAction :=
  { thought := .jstr [], action := .click,
    params := [(xKey, .jint 500), (yKey, .jint 300)],
    raw_response := clickJson }

/-- Claim C1 says validate_action_params returns (false, reason) whenever
    the checks fail, and spec 4.1 says validation failure is a returned
    reason string, never an exception.  The code instead raises
    AttributeError on a scroll action whose present direction value is not
    a string, because the scroll branch calls lower() on it: this theorem
    evaluates the embedded function at that failing input. -/
theorem claim_C1_code_bug_eval :
    validate_action_params scrollBadDirection = .error .attributeError := rfl

/-
  Claim C5.
-/

/-- validate_coordinates on integer coordinates, reduced to integer
    comparisons. -/
theorem validate_coordinates_int (cfg : SafetyConfig) (w h x y : Int) :
    validate_coordinates cfg w h (.jint x) (.jint y) =
      if x < cfg.bounds_margin ∨ w - cfg.bounds_margin ≤ x then
        .ok (false, some (.xTooClose (.jint x)))
      else if y < cfg.bounds_margin ∨ h - cfg.bounds_margin ≤ y then
        .ok (false, some (.yTooClose (.jint y)))
      else .ok (true, none) := by
  simp only [validate_coordinates, toNum, numLt, numGe, PyFloat.blt, PyFloat.ble,
    PyFloat.ofInt, Nat.cast_one, mul_one, Bool.or_eq_true, decide_eq_true_eq]

/-- validate_coordinates_int with the margin written directly (the
    projection of the literal config reduces definitionally). -/
theorem validate_coordinates_intm (m w h x y : Int) :
    validate_coordinates { bounds_margin := m } w h (.jint x) (.jint y) =
      if x < m ∨ w - m ≤ x then .ok (false, some (.xTooClose (.jint x)))
      else if y < m ∨ h - m ≤ y then .ok (false, some (.yTooClose (.jint y)))
      else .ok (true, none) :=
  validate_coordinates_int { bounds_margin := m } w h x y

/-- Claim C5 (amended): over all integer margins, screen sizes and
    coordinates, the Safety Governor coordinate check accepts exactly when
    margin <= x < width - margin and margin <= y < height - margin (upper
    bounds exclusive); for a non-negative margin, x = width is always
    rejected; the accepted coordinate next to the upper bound is
    width - margin - 1 (not width - 1, which the check rejects for any
    positive margin); and a rejection reports the failing axis and
    coordinate, the x axis taking priority. -/
theorem claim_C5 (m w h x y : Int) :
    ((validate_coordinates { bounds_margin := m } w h (.jint x) (.jint y)
        = .ok (true, none)) ↔ (m ≤ x ∧ x < w - m ∧ m ≤ y ∧ y < h - m))
    ∧ (0 ≤ m →
        validate_coordinates { bounds_margin := m } w h (.jint w) (.jint y)
          = .ok (false, some (.xTooClose (.jint w))))
    ∧ (m ≤ w - m - 1 → m ≤ y → y < h - m →
        validate_coordinates { bounds_margin := m } w h (.jint (w - m - 1)) (.jint y)
          = .ok (true, none))
    ∧ ((x < m ∨ w - m ≤ x) →
        validate_coordinates { bounds_margin := m } w h (.jint x) (.jint y)
          = .ok (false, some (.xTooClose (.jint x))))
    ∧ (m ≤ x → x < w - m → (y < m ∨ h - m ≤ y) →
        validate_coordinates { bounds_margin := m } w h (.jint x) (.jint y)
          = .ok (false, some (.yTooClose (.jint y)))) := by
  refine ⟨?_, ?_, ?_, ?_, ?_⟩
  · rw [validate_coordinates_intm]
    constructor
    · intro hv
      split_ifs at hv with h1 h2
      · simp at hv
      · simp at hv
      · omega
    · intro hv
      rw [if_neg (by omega), if_neg (by omega)]
  · intro hm
    rw [validate_coordinates_intm, if_pos (by omega)]
  · intro h1 h2 h3
    rw [validate_coordinates_intm, if_neg (by omega), if_neg (by omega)]
  · intro hx
    rw [validate_coordinates_intm, if_pos hx]
  · intro h1 h2 hy
    rw [validate_coordinates_intm, if_neg (by omega), if_pos hy]

/-- Counterexample to claim C5 as stated: with the margin 10 and screen
    width 1000, the coordinate width - 1 = 999 (with y well inside) is
    rejected by the Safety Governor check, while the claim says x =
    width - 1 is accepted under the margin-adjusted bound. -/
theorem claim_C5_counterexample :
    validate_coordinates { bounds_margin := 10 } 1000 800 (.jint (1000 - 1)) (.jint 400)
      = .ok (false, some (.xTooClose (.jint 999))) := rfl

/-- Witness for claim C5 at the test values of tests/test_action.py:
    margin 10, screen 1000 x 800. -/
theorem claim_C5_witness :
    (validate_coordinates { bounds_margin := 10 } 1000 800 (.jint 989) (.jint 789)
        = .ok (true, none))
    ∧ (validate_coordinates { bounds_margin := 10 } 1000 800 (.jint 1000) (.jint 400)
        = .ok (false, some (.xTooClose (.jint 1000))))
    ∧ (validate_coordinates { bounds_margin := 10 } 1000 800 (.jint 990) (.jint 400)
        = .ok (false, some (.xTooClose (.jint 990))))
    ∧ (validate_coordinates { bounds_margin := 10 } 1000 800 (.jint 989) (.jint 790)
        = .ok (false, some (.yTooClose (.jint 790)))) :=
  ⟨(claim_C5 10 1000 800 989 789).1.mpr (by decide),
   (claim_C5 10 1000 800 0 400).2.1 (by decide),
   (claim_C5 10 1000 800 990 400).2.2.2.1 (by decide),
   (claim_C5 10 1000 800 989 790).2.2.2.2 (by decide) (by decide) (by decide)⟩

/-
  Claim C9.
-/

/-- Claim C9 (amended): get_conversation_for_llm returns a fresh list
    object (a shallow copy): the call itself does not modify the store,
    the returned list holds the same element dicts, and list-level
    mutation of the returned list leaves the store message sequence
    unchanged.  (Mutating a shared element dict does reach the store: see
    the counterexample.) -/
theorem claim_C9 (h : PyHeap) (memList : Nat) (hlive : memList < h.nextAddr) :
    ((get_conversation_for_llm h memList).2 ≠ memList)
    ∧ (readMessages (get_conversation_for_llm h memList).1 memList = readMessages h memList)
    ∧ ((get_conversation_for_llm h memList).1.lists memList = h.lists memList)
    ∧ ((get_conversation_for_llm h memList).1.lists (get_conversation_for_llm h memList).2
        = h.lists memList)
    ∧ (∀ contents, readMessages
        (listMutate (get_conversation_for_llm h memList).1
          (get_conversation_for_llm h memList).2 contents) memList
        = readMessages h memList) := by
  have hne : memList ≠ h.nextAddr := by omega
  refine ⟨by simp only [get_conversation_for_llm]; omega, ?_, ?_, ?_, ?_⟩
  · simp [get_conversation_for_llm, readMessages, setAt, hne]
  · simp [get_conversation_for_llm, setAt, hne]
  · simp [get_conversation_for_llm, setAt]
  · intro contents
    simp [get_conversation_for_llm, readMessages, listMutate, setAt, hne]

/-- Counterexample to claim C9 as stated: the copy is shallow, so mutating
    an element of the returned value in place (the message dict at address
    0, which the returned list at address 1 contains) changes the store
    message sequence, while the claim says any mutation of the returned
    value including its elements leaves the store unchanged. -/
theorem claim_C9_counterexample :
    (0 ∈ (get_conversation_for_llm heapC9 0).1.lists (get_conversation_for_llm heapC9 0).2)
    ∧ readMessages
        (dictMutate (get_conversation_for_llm heapC9 0).1 0
          { role := "user".toList, content := "bye".toList }) 0
      ≠ readMessages heapC9 0 := by
  constructor
  · decide
  · decide

/-- Witness for claim C9 on the concrete one-message store. -/
theorem claim_C9_witness :
    ((get_conversation_for_llm heapC9 0).2 ≠ 0)
    ∧ (readMessages (get_conversation_for_llm heapC9 0).1 0 = readMessages heapC9 0)
    ∧ (readMessages
        (listMutate (get_conversation_for_llm heapC9 0).1
          (get_conversation_for_llm heapC9 0).2 []) 0
        = readMessages heapC9 0) :=
  ⟨(claim_C9 heapC9 0 (by decide)).1,
   (claim_C9 heapC9 0 (by decide)).2.1,
   (claim_C9 heapC9 0 (by decide)).2.2.2.2 []⟩

/-- The value validate_action feeds into the bounds check for a key is
    numeric whenever the stored value is numeric or absent. -/
theorem dictGetD_numeric (params : List (Str × JVal)) (k : Str)
    (hk : coordOkAt params k = true) :
    isOkB (toNum (dictGetD params k (.jint 0))) = true := by
  unfold coordOkAt at hk
  unfold dictGetD
  cases hg : dictGet? params k with
  | none => rfl
  | some v => rw [hg] at hk; simpa using hk

/-- A successful coordinate check verdict is full acceptance or a bounds
    violation naming an axis. -/
theorem validate_coordinates_ok_shape (cfg : SafetyConfig) (w h : Int) (x y : JVal)
    (r : Bool × Option SafetyMsg)
    (hr : validate_coordinates cfg w h x y = .ok r) :
    r = (true, none) ∨ ∃ m, r = (false, some m) ∧ isBoundsMsg m = true := by
  simp only [validate_coordinates] at hr
  cases hx : toNum x with
  | error e => rw [hx] at hr; exact absurd hr (by simp)
  | ok xv =>
    rw [hx] at hr
    dsimp only at hr
    split_ifs at hr with h1
    · exact Or.inr ⟨SafetyMsg.xTooClose x, by simpa using hr.symm, rfl⟩
    · cases hy : toNum y with
      | error e => rw [hy] at hr; exact absurd hr (by simp)
      | ok yv =>
        rw [hy] at hr
        dsimp only at hr
        split_ifs at hr with h2
        · exact Or.inr ⟨SafetyMsg.yTooClose y, by simpa using hr.symm, rfl⟩
        · exact Or.inl (by simpa using hr.symm)

/-- The coordinate check never raises on numeric arguments. -/
theorem validate_coordinates_total (cfg : SafetyConfig) (w h : Int) (x y : JVal)
    (hx : isOkB (toNum x) = true) (hy : isOkB (toNum y) = true) :
    ∃ r, validate_coordinates cfg w h x y = .ok r := by
  simp only [validate_coordinates]
  cases htx : toNum x with
  | error e => rw [htx] at hx; exact absurd hx (by simp [isOkB])
  | ok xv =>
    dsimp only
    split_ifs with h1
    · exact ⟨_, rfl⟩
    · cases hty : toNum y with
      | error e => rw [hty] at hy; exact absurd hy (by simp [isOkB])
      | ok yv =>
        dsimp only
        split_ifs with h2
        · exact ⟨_, rfl⟩
        · exact ⟨_, rfl⟩

/-- With a positive margin, the substituted x = 0 is immediately out of
    bounds. -/
theorem validate_coordinates_xdefault (cfg : SafetyConfig) (w h : Int) (y : JVal)
    (hm : 0 < cfg.bounds_margin) :
    validate_coordinates cfg w h (.jint 0) y
      = .ok (false, some (.xTooClose (.jint 0))) := by
  simp only [validate_coordinates, toNum]
  have hc : (numLt (NumV.fin (PyFloat.ofInt 0)) cfg.bounds_margin
      || numGe (NumV.fin (PyFloat.ofInt 0)) (w - cfg.bounds_margin)) = true := by
    simp only [numLt, PyFloat.blt, PyFloat.ofInt, Nat.cast_one, mul_one, Bool.or_eq_true,
      decide_eq_true_eq]
    exact Or.inl hm
  rw [if_pos hc]

/-- With a positive margin and a numeric x, the check with the substituted
    y = 0 is denied with a bounds verdict (on x when x itself is out of
    bounds, else on y). -/
theorem validate_coordinates_ydefault (cfg : SafetyConfig) (w h : Int) (x : JVal)
    (hm : 0 < cfg.bounds_margin) (hx : isOkB (toNum x) = true) :
    ∃ m, validate_coordinates cfg w h x (.jint 0)
        = .ok ((false : Bool), some m) ∧ isBoundsMsg m = true := by
  simp only [validate_coordinates]
  cases htx : toNum x with
  | error e => rw [htx] at hx; exact absurd hx (by simp [isOkB])
  | ok xv =>
    dsimp only
    split_ifs with h1
    · exact ⟨_, rfl, rfl⟩
    · refine ⟨.yTooClose (.jint 0), ?_, rfl⟩
      simp only [toNum]
      have hc : (numLt (NumV.fin (PyFloat.ofInt 0)) cfg.bounds_margin
          || numGe (NumV.fin (PyFloat.ofInt 0)) (h - cfg.bounds_margin)) = true := by
        simp only [numLt, PyFloat.blt, PyFloat.ofInt, Nat.cast_one, mul_one, Bool.or_eq_true,
          decide_eq_true_eq]
        exact Or.inl hm
      rw [if_pos hc]

/-- params.get with a default returns the default when the key is
    absent. -/
theorem dictGetD_missing (params : List (Str × JVal)) (k : Str) (d : JVal)
    (hk : (dictGet? params k).isNone = true) : dictGetD params k d = d := by
  unfold dictGetD
  cases hg : dictGet? params k with
  | none => rfl
  | some v => rw [hg] at hk; simp at hk

/-- validate_action is total when every present coordinate parameter of
    the position-bearing kinds is numeric, and a missing coordinate under
    an admitting rate check and positive margin forces a bounds denial. -/
theorem validate_action_parts (cfg : SafetyConfig) (w h : Int) (s : SafetyState)
    (now : PyFloat) (action : Str) (params : List (Str × JVal)) :
    (((coordKeysOf action).all (coordOkAt params) = true) →
        ∃ r, validate_action cfg w h s now action params = .ok r)
    ∧ (0 < cfg.bounds_margin →
       (check_rate_limit cfg now s).1.1 = true →
       ((coordKeysOf action).any (fun k => (dictGet? params k).isNone) = true) →
       ((coordKeysOf action).all (coordOkAt params) = true) →
       ∃ msg, validate_action cfg w h s now action params
           = .ok ((false, some msg), (check_rate_limit cfg now s).2)
         ∧ isBoundsMsg msg = true) := by
  constructor
  · intro hall
    dsimp only [validate_action]
    by_cases hrl : (check_rate_limit cfg now s).1.1 = true
    · rw [if_neg (not_not_intro hrl)]
      by_cases hfam : action = "click".toList ∨ action = "double_click".toList
          ∨ action = "move".toList
      · rw [if_pos hfam]
        rw [coordKeysOf, if_pos hfam] at hall
        simp only [List.all_cons, List.all_nil, Bool.and_eq_true, and_true] at hall
        obtain ⟨r, hr⟩ := validate_coordinates_total cfg w h _ _
          (dictGetD_numeric params xKey hall.1) (dictGetD_numeric params yKey hall.2)
        rw [hr]
        dsimp only
        by_cases hr1 : r.1 = true
        · rw [if_neg (not_not_intro hr1)]
          have hdrag : ¬(action = "drag".toList) := by
            rcases hfam with hf | hf | hf <;> subst hf <;> decide
          rw [validate_action_dragLeg, if_neg hdrag]
          exact ⟨_, rfl⟩
        · rw [if_pos hr1]
          exact ⟨_, rfl⟩
      · rw [if_neg hfam]
        rw [validate_action_dragLeg]
        by_cases hdrag : action = "drag".toList
        · rw [if_pos hdrag]
          rw [coordKeysOf, if_neg hfam, if_pos hdrag] at hall
          simp only [List.all_cons, List.all_nil, Bool.and_eq_true, and_true] at hall
          obtain ⟨r1, hr1⟩ := validate_coordinates_total cfg w h _ _
            (dictGetD_numeric params startXKey hall.1)
            (dictGetD_numeric params startYKey hall.2.1)
          rw [hr1]
          dsimp only
          by_cases hb1 : r1.1 = true
          · rw [if_neg (not_not_intro hb1)]
            obtain ⟨r2, hr2⟩ := validate_coordinates_total cfg w h _ _
              (dictGetD_numeric params endXKey hall.2.2.1)
              (dictGetD_numeric params endYKey hall.2.2.2)
            rw [hr2]
            dsimp only
            by_cases hb2 : r2.1 = true
            · rw [if_neg (not_not_intro hb2)]
              exact ⟨_, rfl⟩
            · rw [if_pos hb2]
              exact ⟨_, rfl⟩
          · rw [if_pos hb1]
            exact ⟨_, rfl⟩
        · rw [if_neg hdrag]
          exact ⟨_, rfl⟩
    · rw [if_pos hrl]
      exact ⟨_, rfl⟩
  · intro hm hrl hany hall
    dsimp only [validate_action]
    rw [if_neg (not_not_intro hrl)]
    by_cases hfam : action = "click".toList ∨ action = "double_click".toList
        ∨ action = "move".toList
    · rw [if_pos hfam]
      rw [coordKeysOf, if_pos hfam] at hall hany
      simp only [List.all_cons, List.all_nil, Bool.and_eq_true, and_true] at hall
      simp only [List.any_cons, List.any_nil, Bool.or_eq_true, Bool.false_eq_true, or_false] at hany
      by_cases hxm : (dictGet? params xKey).isNone = true
      · rw [dictGetD_missing params xKey _ hxm,
          validate_coordinates_xdefault cfg w h _ hm]
        dsimp only
        rw [if_pos (by simp)]
        exact ⟨_, rfl, rfl⟩
      · have hym : (dictGet? params yKey).isNone = true := by
          rcases hany with hk | hk
          · exact absurd hk hxm
          · exact hk
        rw [dictGetD_missing params yKey _ hym]
        obtain ⟨msg, hvc, hb⟩ := validate_coordinates_ydefault cfg w h _ hm
          (dictGetD_numeric params xKey hall.1)
        rw [hvc]
        dsimp only
        rw [if_pos (by simp)]
        exact ⟨msg, rfl, hb⟩
    · by_cases hdrag : action = "drag".toList
      · rw [if_neg hfam, validate_action_dragLeg, if_pos hdrag]
        rw [coordKeysOf, if_neg hfam, if_pos hdrag] at hall hany
        simp only [List.all_cons, List.all_nil, Bool.and_eq_true, and_true] at hall
        simp only [List.any_cons, List.any_nil, Bool.or_eq_true, Bool.false_eq_true, or_false] at hany
        by_cases hsxm : (dictGet? params startXKey).isNone = true
        · rw [dictGetD_missing params startXKey _ hsxm,
            validate_coordinates_xdefault cfg w h _ hm]
          dsimp only
          rw [if_pos (by simp)]
          exact ⟨_, rfl, rfl⟩
        · by_cases hsym : (dictGet? params startYKey).isNone = true
          · rw [dictGetD_missing params startYKey _ hsym]
            obtain ⟨msg, hvc, hb⟩ := validate_coordinates_ydefault cfg w h _ hm
              (dictGetD_numeric params startXKey hall.1)
            rw [hvc]
            dsimp only
            rw [if_pos (by simp)]
            exact ⟨msg, rfl, hb⟩
          · obtain ⟨r1, hr1⟩ := validate_coordinates_total cfg w h _ _
              (dictGetD_numeric params startXKey hall.1)
              (dictGetD_numeric params startYKey hall.2.1)
            rcases validate_coordinates_ok_shape cfg w h _ _ r1 hr1 with hsh | ⟨msg, hmsg, hb⟩
            · rw [hr1, hsh]
              dsimp only
              rw [if_neg (by simp)]
              by_cases hexm : (dictGet? params endXKey).isNone = true
              · rw [dictGetD_missing params endXKey _ hexm,
                  validate_coordinates_xdefault cfg w h _ hm]
                dsimp only
                rw [if_pos (by simp)]
                exact ⟨_, rfl, rfl⟩
              · have heym : (dictGet? params endYKey).isNone = true := by
                  rcases hany with hk | hk | hk | hk
                  · exact absurd hk hsxm
                  · exact absurd hk hsym
                  · exact absurd hk hexm
                  · exact hk
                rw [dictGetD_missing params endYKey _ heym]
                obtain ⟨msg, hvc, hb⟩ := validate_coordinates_ydefault cfg w h _ hm
                  (dictGetD_numeric params endXKey hall.2.2.1)
                rw [hvc]
                dsimp only
                rw [if_pos (by simp)]
                exact ⟨msg, rfl, hb⟩
            · rw [hr1, hmsg]
              dsimp only
              rw [if_pos (by simp)]
              exact ⟨msg, rfl, hb⟩
      · rw [coordKeysOf, if_neg hfam, if_neg hdrag] at hany
        simp at hany

/-- Claim C10 (amended): validate_action never raises provided every
    present coordinate parameter of the position-bearing kinds is numeric
    (for other values Python raises TypeError at the first comparison);
    and whenever the rate-limit check admits, the margin is positive, and
    some coordinate parameter the kind needs is missing, the substituted 0
    puts the action out of bounds, so it is denied with a bounds verdict
    naming an axis. -/
theorem claim_C10 (cfg : SafetyConfig) (w h : Int) (s : SafetyState) (now : PyFloat)
    (action : Str) (params : List (Str × JVal)) :
    (((coordKeysOf action).all (coordOkAt params) = true) →
        ∃ r, validate_action cfg w h s now action params = .ok r)
    ∧ (0 < cfg.bounds_margin →
       (check_rate_limit cfg now s).1.1 = true →
       ((coordKeysOf action).any (fun k => (dictGet? params k).isNone) = true) →
       ((coordKeysOf action).all (coordOkAt params) = true) →
       ∃ msg, validate_action cfg w h s now action params
           = .ok ((false, some msg), (check_rate_limit cfg now s).2)
         ∧ isBoundsMsg msg = true) :=
  validate_action_parts cfg w h s now action params

/-- Counterexample to claim C10 as stated: validate_action is not total
    over every params mapping.  On a click whose x value is the string a
    (fresh controller, default config, time 100), Python reaches the
    comparison x < margin and raises TypeError instead of returning a
    verdict. -/
theorem claim_C10_counterexample :
    validate_action {} 1000 800 freshSafetyState ⟨100, 1⟩ "click".toList
      [(xKey, .jstr "a".toList)] = .error .typeError := rfl

/-- Witness for claim C10: a click with x missing (y present), fresh
    controller, default margin 10, is denied with a bounds verdict. -/
theorem claim_C10_witness :
    ∃ msg, validate_action {} 1000 800 freshSafetyState ⟨100, 1⟩ "click".toList
        [(yKey, .jint 50)]
        = .ok ((false, some msg), (check_rate_limit {} ⟨100, 1⟩ freshSafetyState).2)
      ∧ isBoundsMsg msg = true :=
  (claim_C10 {} 1000 800 freshSafetyState ⟨100, 1⟩ "click".toList [(yKey, .jint 50)]).2
    (by decide) (by decide) (by decide) (by decide)

/-
  Claim C6.
-/

/-- A Python negative-start slice l[-k:] for positive k is the k most
    recent entries. -/
theorem pySuffix_neg {α : Type} (l : List α) (k : Int) (hk : 1 ≤ k) :
    pySuffix l (-k) = lastN k.toNat l := by
  unfold pySuffix lastN
  rw [if_pos (by omega)]
  congr 1
  omega

/-- Trimming to the most recent entries twice across an append trims
    once. -/
theorem lastN_append_left {α : Type} (c : Nat) (l ms : List α) :
    lastN c (lastN c l ++ ms) = lastN c (l ++ ms) := by
  unfold lastN
  rcases le_or_lt l.length c with hc | hc
  · rw [Nat.sub_eq_zero_of_le hc, List.drop_zero]
  · have hlen : (l.drop (l.length - c)).length = c := by
      rw [List.length_drop]; omega
    rw [List.length_append, List.length_append, hlen, Nat.add_sub_cancel_left,
      List.drop_append_eq_append_drop, List.drop_append_eq_append_drop, hlen,
      List.drop_drop]
    congr 2 <;> omega

/-- One add_message call from a state whose head (the only entry the
    source inspects) is not a system message keeps exactly the most recent
    cap entries of the appended list. -/
theorem add_message_headns_step {α : Type} (cap : Int) (hcap : 1 ≤ cap)
    (s : List (Message α)) (m : Message α)
    (hs : ∀ m0 rest, s = m0 :: rest → m0.role ≠ sysRole) :
    add_message cap s m = lastN cap.toNat (s ++ [m]) := by
  unfold add_message
  rcases le_or_lt ((s ++ [m]).length : Int) cap with hle | hgt
  · rw [if_neg (by omega)]
    unfold lastN
    rw [Nat.sub_eq_zero_of_le (by omega), List.drop_zero]
  · rw [if_pos hgt]
    cases s with
    | nil =>
      rw [List.length_append, List.length_singleton, List.length_nil] at hgt
      simp at hgt
      omega
    | cons s0 srest =>
      have hcons : (s0 :: srest) ++ [m] = s0 :: (srest ++ [m]) := rfl
      rw [hcons]
      dsimp only
      rw [if_neg (hs s0 srest rfl)]
      exact pySuffix_neg _ cap hcap

/-- Folding add_message over inputs with no system entries, from a short
    system-free state, keeps exactly the most recent cap entries. -/
theorem foldl_add_message_nonsys {α : Type} (cap : Int) (hcap : 1 ≤ cap) :
    ∀ (inputs s : List (Message α)),
      (∀ x ∈ s, x.role ≠ sysRole) → (∀ x ∈ inputs, x.role ≠ sysRole) →
      s.length ≤ cap.toNat →
      List.foldl (add_message cap) s inputs = lastN cap.toNat (s ++ inputs) := by
  intro inputs
  induction inputs with
  | nil =>
    intro s _ _ hlen
    rw [List.foldl_nil, List.append_nil]
    unfold lastN
    rw [Nat.sub_eq_zero_of_le hlen, List.drop_zero]
  | cons m ms ih =>
    intro s hs hin hlen
    rw [List.foldl_cons,
      add_message_headns_step cap hcap s m
        (fun m0 rest he => hs m0 (he ▸ List.mem_cons_self m0 rest))]
    have hsub : ∀ x ∈ lastN cap.toNat (s ++ [m]), x.role ≠ sysRole := by
      intro x hx
      have hx2 : x ∈ s ++ [m] := List.drop_subset _ _ hx
      rcases List.mem_append.mp hx2 with hx3 | hx3
      · exact hs x hx3
      · rw [List.mem_singleton.mp hx3]
        exact hin m (List.mem_cons_self m ms)
    have hlen2 : (lastN cap.toNat (s ++ [m])).length ≤ cap.toNat := by
      unfold lastN
      rw [List.length_drop]
      omega
    rw [ih (lastN cap.toNat (s ++ [m])) hsub
      (fun x hx => hin x (List.mem_cons_of_mem m hx)) hlen2]
    rw [lastN_append_left]
    congr 1
    rw [List.append_assoc]
    rfl

/-- Claim C6 (amended): after an add_message call that makes the stored
    count exceed the cap C, the store keeps the leading system message
    plus exactly the most recent C - 1 entries when the first entry has
    the system role and C is at least 2, and exactly the most recent C
    entries otherwise when C is at least 1; a call not exceeding the cap
    just appends; and folding N non-system messages from an empty store
    keeps exactly the most recent C.  (For C = 1 with a system head, and
    for C = 0, the degenerate Python slice [-0:] is the whole list, the
    store is not trimmed, and the cap is not enforced: see the
    counterexample.) -/
theorem claim_C6 {α : Type} (cap : Int) (msgs : List (Message α)) (m : Message α) :
    (2 ≤ cap → cap < (msgs.length + 1 : Int) →
      ∀ m0 rest, msgs = m0 :: rest → m0.role = sysRole →
        add_message cap msgs m = m0 :: lastN (cap - 1).toNat (msgs ++ [m]))
    ∧ (1 ≤ cap → cap < (msgs.length + 1 : Int) →
        (∀ m0 rest, msgs = m0 :: rest → m0.role ≠ sysRole) →
        add_message cap msgs m = lastN cap.toNat (msgs ++ [m]))
    ∧ ((msgs.length + 1 : Int) ≤ cap → add_message cap msgs m = msgs ++ [m])
    ∧ (∀ inputs : List (Message α), 1 ≤ cap →
        (∀ x ∈ inputs, x.role ≠ sysRole) →
        List.foldl (add_message cap) [] inputs = lastN cap.toNat inputs) := by
  refine ⟨?_, ?_, ?_, ?_⟩
  · intro h2 hlen m0 rest hm0 hrole
    subst hm0
    unfold add_message
    rw [if_pos (by rw [List.length_append, List.length_singleton]; omega)]
    have hcons : (m0 :: rest) ++ [m] = m0 :: (rest ++ [m]) := rfl
    rw [hcons]
    dsimp only
    rw [if_pos hrole, pySuffix_neg _ (cap - 1) (by omega)]
  · intro h1 hlen hns
    exact add_message_headns_step cap h1 msgs m hns
  · intro hle
    unfold add_message
    rw [if_neg (by rw [List.length_append, List.length_singleton]; omega)]
  · intro inputs h1 hin
    have hfold := foldl_add_message_nonsys cap h1 inputs []
      (by intro x hx; cases hx) hin (by simp)
    rw [List.nil_append] at hfold
    exact hfold

/-- Counterexample to claim C6 as stated: with cap C = 1 and a leading
    system message, the claim asks for the system message plus the most
    recent C - 1 = 0 entries after the count exceeds the cap, but the
    Python slice [-(1-1):] is the whole list, so a second add leaves a
    three-entry store (the system head duplicated, trimming nothing). -/
theorem claim_C6_counterexample :
    (add_message 1 [Message.mk sysRole (0 : Nat)] (Message.mk "user".toList 1)
      = [Message.mk sysRole 0, Message.mk sysRole 0, Message.mk "user".toList 1])
    ∧ (add_message 1 [Message.mk sysRole (0 : Nat)] (Message.mk "user".toList 1)
      ≠ Message.mk sysRole 0 ::
          lastN 0 ([Message.mk sysRole (0 : Nat)] ++ [Message.mk "user".toList 1])) := by
  constructor
  · rfl
  · decide

/-- Witness for claim C6 with cap 2: a system head is kept plus the most
    recent entry, a non-system store keeps the most recent two, a short
    store just appends, and a five-message fold keeps the last two. -/
theorem claim_C6_witness :
    (add_message 2 [Message.mk sysRole (0 : Nat), Message.mk "user".toList 1]
        (Message.mk "user".toList 2)
      = Message.mk sysRole 0 ::
          lastN 1 [Message.mk sysRole 0, Message.mk "user".toList 1, Message.mk "user".toList 2])
    ∧ (add_message 2 [Message.mk "user".toList (0 : Nat), Message.mk "user".toList 1]
        (Message.mk "user".toList 2)
      = lastN 2 [Message.mk "user".toList 0, Message.mk "user".toList 1, Message.mk "user".toList 2])
    ∧ (add_message 2 [Message.mk "user".toList (0 : Nat)] (Message.mk "user".toList 1)
      = [Message.mk "user".toList 0, Message.mk "user".toList 1])
    ∧ (List.foldl (add_message 2) []
        [Message.mk "user".toList (0 : Nat), Message.mk "user".toList 1,
         Message.mk "user".toList 2, Message.mk "user".toList 3]
      = lastN 2 [Message.mk "user".toList 0, Message.mk "user".toList 1,
         Message.mk "user".toList 2, Message.mk "user".toList 3]) :=
  ⟨(claim_C6 2 [Message.mk sysRole 0, Message.mk "user".toList 1]
      (Message.mk "user".toList 2)).1 (by decide) (by decide) _ _ rfl (by decide),
   (claim_C6 2 [Message.mk "user".toList 0, Message.mk "user".toList 1]
      (Message.mk "user".toList 2)).2.1 (by decide) (by decide)
      (by intro m0 rest he; cases he; decide),
   (claim_C6 2 [Message.mk "user".toList 0] (Message.mk "user".toList 1)).2.2.1 (by decide),
   (claim_C6 2 [] (Message.mk "user".toList 0)).2.2.2
      [Message.mk "user".toList 0, Message.mk "user".toList 1,
       Message.mk "user".toList 2, Message.mk "user".toList 3] (by decide)
      (by intro x hx; fin_cases hx <;> decide)⟩

/-- The loop of extract_json_object, characterized: it collects exactly
    the decoded objects in scan order, records the first decode error, and
    notes whether any brace was seen. -/
theorem extract_foldl_spec (response : Str) (ps : List Nat) (objs0 : List JVal)
    (e0 : Option DecErr) (f0 : Bool) :
    ps.foldl (extractStep response) ⟨objs0, e0, f0⟩ =
      ⟨objs0 ++ ps.filterMap (decodedObjAt response),
       firstSome e0 ((ps.filterMap (decodeErrAt response)).head?),
       f0 || !ps.isEmpty⟩ := by
  induction ps generalizing objs0 e0 f0 with
  | nil =>
    simp [firstSome]
    cases e0 <;> rfl
  | cons p ps ih =>
    rw [List.foldl_cons]
    cases hd : json_raw_decode (response.drop p) with
    | error e =>
      have hobj : decodedObjAt response p = none := by
        unfold decodedObjAt; rw [hd]
      have herr : decodeErrAt response p = some e := by
        unfold decodeErrAt; rw [hd]
      have hstep : extractStep response ⟨objs0, e0, f0⟩ p
          = ⟨objs0, firstSome e0 (some e), true⟩ := by
        unfold extractStep
        rw [hd]
        cases e0 <;> rfl
      rw [hstep, ih]
      simp only [List.filterMap_cons, hobj, herr, List.isEmpty_cons]
      cases e0 <;> simp [firstSome]
    | ok v =>
      have herr : decodeErrAt response p = none := by
        unfold decodeErrAt; rw [hd]
      by_cases hv : isDict v = true
      · have hobj : decodedObjAt response p = some v := by
          unfold decodedObjAt
          rw [hd]
          simp [hv]
        have hstep : extractStep response ⟨objs0, e0, f0⟩ p
            = ⟨objs0 ++ [v], e0, true⟩ := by
          unfold extractStep
          rw [hd]
          simp [hv]
        rw [hstep, ih]
        simp only [List.filterMap_cons, hobj, herr, List.isEmpty_cons]
        simp
      · have hobj : decodedObjAt response p = none := by
          unfold decodedObjAt
          rw [hd]
          simp [hv]
        have hstep : extractStep response ⟨objs0, e0, f0⟩ p
            = ⟨objs0, e0, true⟩ := by
          unfold extractStep
          rw [hd]
          simp [hv]
        rw [hstep, ih]
        simp only [List.filterMap_cons, hobj, herr, List.isEmpty_cons]
        simp

/-- A successful run of the scanner in object-rest mode always yields a
    dict. -/
theorem jrun_objRest_obj : ∀ (fuel : Nat) (fields : List (Str × JVal)) (cs : Str)
    (pos : Nat) (v : JVal) (r : Str) (p : Nat),
    jrun fuel (.objRest fields) cs pos = .ok (v, r, p) → isDict v = true := by
  intro fuel
  induction fuel with
  | zero =>
    intro fields cs pos v r p h
    exact absurd h (by simp [jrun])
  | succ fuel ih =>
    intro fields cs pos v r p h
    simp only [jrun] at h
    repeat' split at h
    all_goals first
      | (simp only [Except.ok.injEq, Prod.mk.injEq] at h
         obtain ⟨hv, -⟩ := h
         exact hv ▸ rfl)
      | (simp at h)
      | exact ih _ _ _ _ _ _ h

/-- A successful streaming decode of a candidate that starts with an
    opening brace always yields a dict: the value branch dispatches to the
    object parser. -/
theorem jrun_value_lbrace : ∀ (fuel : Nat) (rest : Str) (pos : Nat) (v : JVal)
    (r : Str) (p : Nat),
    jrun fuel .value (lbrace :: rest) pos = .ok (v, r, p) → isDict v = true := by
  intro fuel rest pos v r p h
  cases fuel with
  | zero => exact absurd h (by simp [jrun])
  | succ fuel =>
    simp only [jrun, eq_false (by decide : ¬(lbrace = Char.ofNat 34)), if_false,
      eq_self_iff_true, if_true] at h
    repeat' split at h
    all_goals first
      | (simp only [Except.ok.injEq, Prod.mk.injEq] at h
         obtain ⟨hv, -⟩ := h
         exact hv ▸ rfl)
      | (simp at h)
      | exact jrun_objRest_obj _ _ _ _ _ _ _ h

/-- raw_decode of a candidate starting with an opening brace yields a dict
    when it succeeds. -/
theorem json_raw_decode_lbrace (cs : Str) (v : JVal)
    (hhead : cs.head? = some lbrace) (hok : json_raw_decode cs = .ok v) :
    isDict v = true := by
  cases cs with
  | nil => simp at hhead
  | cons c rest =>
    rw [List.head?_cons, Option.some_inj] at hhead
    subst hhead
    unfold json_raw_decode at hok
    cases hj : jrun (((lbrace :: rest) : Str).length + 1) .value (lbrace :: rest) 0 with
    | error e => rw [hj] at hok; exact absurd hok (by simp)
    | ok t =>
      rw [hj] at hok
      obtain ⟨tv, tr, tp⟩ := t
      have := jrun_value_lbrace _ rest 0 tv tr tp hj
      simp only [Except.ok.injEq] at hok
      rw [← hok]
      exact this

/-- Every member of bracePositionsAux points at an opening brace. -/
theorem bracePositionsAux_head : ∀ (cs : Str) (i p : Nat),
    p ∈ bracePositionsAux cs i → i ≤ p ∧ (cs.drop (p - i)).head? = some lbrace := by
  intro cs
  induction cs with
  | nil =>
    intro i p h
    simp [bracePositionsAux] at h
  | cons c rest ih =>
    intro i p h
    rw [bracePositionsAux] at h
    by_cases hc : c = lbrace
    · rw [if_pos hc] at h
      rcases List.mem_cons.mp h with rfl | h2
      · subst hc
        exact ⟨le_refl _, by simp⟩
      · obtain ⟨hle, hh⟩ := ih (i + 1) p h2
        refine ⟨by omega, ?_⟩
        rw [show p - i = (p - (i + 1)) + 1 by omega, List.drop_succ_cons]
        exact hh
    · rw [if_neg hc] at h
      obtain ⟨hle, hh⟩ := ih (i + 1) p h
      refine ⟨by omega, ?_⟩
      rw [show p - i = (p - (i + 1)) + 1 by omega, List.drop_succ_cons]
      exact hh

/-- Every brace position points at an opening brace. -/
theorem bracePositions_head (response : Str) (p : Nat)
    (hp : p ∈ bracePositions response) :
    (response.drop p).head? = some lbrace := by
  obtain ⟨-, hh⟩ := bracePositionsAux_head response 0 p hp
  simpa using hh

/-- At a brace position, a candidate that contributes no object must have
    failed to decode. -/
theorem brace_candidate_fail (response : Str) (p : Nat)
    (hp : p ∈ bracePositions response)
    (hnone : decodedObjAt response p = none) :
    ∃ e, decodeErrAt response p = some e := by
  unfold decodedObjAt at hnone
  unfold decodeErrAt
  cases hd : json_raw_decode (response.drop p) with
  | error e => exact ⟨e, rfl⟩
  | ok v =>
    rw [hd] at hnone
    have hv := json_raw_decode_lbrace _ v (bracePositions_head response p hp) hd
    simp [hv] at hnone

/-- Claim C3: for every input text, the json extraction collects every
    syntactically valid json object found by a streaming decode at each
    opening-brace position in scan order, and returns the first collected
    object (by scan position) containing an action key, falling back to
    the first collected object; the source-structured loop equals this
    spec-worded selection rule. -/
theorem claim_C3 (response : Str) :
    exceptToOption (extract_json_object response) = extractSpec response := by
  unfold extract_json_object extractSpec collectedObjects
  rw [extract_foldl_spec]
  dsimp only
  rw [List.nil_append]
  cases hobjs : (bracePositions response).filterMap (decodedObjAt response) with
  | nil =>
    simp only [List.find?_nil, List.head?_nil]
    try dsimp only
    split <;> rfl
  | cons o rest =>
    cases hfind : (o :: rest).find? (fun v => hasKey v actionKey) with
    | some v => simp [exceptToOption, hfind]
    | none => simp [exceptToOption, hfind]

/-- With no opening brace at all, the extraction raises the no-json
    message echoing the (bounded) input preview. -/
theorem extract_of_braces_nil (response : Str)
    (h : bracePositions response = []) :
    extract_json_object response = .error (.noJsonFound (response.take 200)) := by
  unfold extract_json_object
  rw [h]
  rfl

/-- With at least one brace but no candidate decoding to an object, the
    extraction raises the first decode error in scan order. -/
theorem extract_of_allfail (response : Str)
    (h1 : bracePositions response ≠ []) (h2 : collectedObjects response = []) :
    ∃ e, firstDecodeError response = some e ∧
      extract_json_object response = .error (.invalidJson e) := by
  obtain ⟨p, ps, hps⟩ := List.exists_cons_of_ne_nil h1
  have hallnone : ∀ q ∈ bracePositions response, decodedObjAt response q = none := by
    unfold collectedObjects at h2
    intro q hq
    exact List.filterMap_eq_nil_iff.mp h2 q hq
  have hp0 : p ∈ bracePositions response := by
    rw [hps]; exact List.mem_cons_self _ _
  obtain ⟨e, he⟩ := brace_candidate_fail response p hp0 (hallnone p hp0)
  have herrhead :
      ((bracePositions response).filterMap (decodeErrAt response)).head? = some e := by
    rw [hps, List.filterMap_cons]
    simp [he]
  refine ⟨e, ?_, ?_⟩
  · unfold firstDecodeError
    exact herrhead
  · unfold extract_json_object
    rw [extract_foldl_spec]
    dsimp only
    rw [List.nil_append]
    unfold collectedObjects at h2
    have hne : (bracePositions response).isEmpty = false := by
      rw [hps]; rfl
    rw [h2, hne, herrhead]
    rfl

/-- With at least one collected object, the extraction returns one. -/
theorem extract_ok (response : Str)
    (h : collectedObjects response ≠ []) :
    ∃ v, extract_json_object response = .ok v := by
  unfold extract_json_object
  rw [extract_foldl_spec]
  dsimp only
  rw [List.nil_append]
  unfold collectedObjects at h
  cases hobjs : (bracePositions response).filterMap (decodedObjAt response) with
  | nil => exact absurd hobjs h
  | cons o rest =>
    cases hfind : (o :: rest).find? (fun v => hasKey v actionKey) with
    | some v => exact ⟨v, by simp [hfind]⟩
    | none => exact ⟨o, by simp [hfind]⟩

/-- Claim C4 (amended): parse_llm_response fails with the no-json message
    echoing the first two hundred characters of the input exactly when the
    input contains no opening brace at all; when at least one brace
    appears but every candidate fails to decode, it fails with the first
    decode error encountered (not with the no-json message, as the claim
    also asserts); and in either situation it never returns a
    ParsedAction. -/
theorem claim_C4 (response : Str) :
    (parse_llm_response response = .error (.noJsonFound (response.take 200)) ↔
      bracePositions response = [])
    ∧ (bracePositions response ≠ [] → collectedObjects response = [] →
        ∃ e, firstDecodeError response = some e ∧
          parse_llm_response response = .error (.invalidJson e))
    ∧ (collectedObjects response = [] →
        ∀ a, parse_llm_response response ≠ .ok a) := by
  refine ⟨⟨?_, ?_⟩, ?_, ?_⟩
  · intro hparse
    by_contra hne
    by_cases hobjs : collectedObjects response = []
    · obtain ⟨e, -, hex⟩ := extract_of_allfail response hne hobjs
      have hpe : parse_llm_response response = .error (.invalidJson e) := by
        unfold parse_llm_response
        rw [hex]
      rw [hpe] at hparse
      simp at hparse
    · obtain ⟨v, hex⟩ := extract_ok response hobjs
      unfold parse_llm_response at hparse
      rw [hex] at hparse
      dsimp only at hparse
      repeat' split at hparse
      all_goals simp at hparse
  · intro hb
    have hex := extract_of_braces_nil response hb
    unfold parse_llm_response
    rw [hex]
  · intro h1 h2
    obtain ⟨e, hfe, hex⟩ := extract_of_allfail response h1 h2
    refine ⟨e, hfe, ?_⟩
    unfold parse_llm_response
    rw [hex]
  · intro h2 a hok
    by_cases hb : bracePositions response = []
    · have hex := extract_of_braces_nil response hb
      unfold parse_llm_response at hok
      rw [hex] at hok
      simp at hok
    · obtain ⟨e, -, hex⟩ := extract_of_allfail response hb h2
      unfold parse_llm_response at hok
      rw [hex] at hok
      simp at hok

/-- Counterexample to claim C4 as stated: on the one-character input of a
    lone opening brace, no candidate parses, and the claim then asks for
    the no-json message; the code instead fails with the first decode
    error (expecting a property name at position 1). -/
theorem claim_C4_counterexample :
    (bracePositions "\x7b".toList ≠ [])
    ∧ (collectedObjects "\x7b".toList = [])
    ∧ (parse_llm_response "\x7b".toList
        = .error (.invalidJson ⟨.expectingPropertyName, 1⟩))
    ∧ (PErr.invalidJson ⟨.expectingPropertyName, 1⟩
        ≠ .noJsonFound ("\x7b".toList.take 200)) :=
  ⟨by decide, rfl, rfl, by decide⟩

/-- Witness for claim C4 on the lone-brace input. -/
theorem claim_C4_witness :
    (∃ e, firstDecodeError "\x7b".toList = some e ∧
        parse_llm_response "\x7b".toList = .error (.invalidJson e))
    ∧ (∀ a, parse_llm_response "\x7b".toList ≠ .ok a) :=
  ⟨(claim_C4 "\x7b".toList).2.1 (by decide) rfl,
   (claim_C4 "\x7b".toList).2.2 rfl⟩

/-
  Claims C2, C7, C8: the control loop.
-/

/-- A valid verdict from validate_action_params always carries no reason. -/
theorem validate_true_shape (a : ParsedAction) (v2 : Option VErr)
    (h : validate_action_params a = .ok (true, v2)) : v2 = none := by
  unfold validate_action_params at h
  repeat' split at h
  all_goals simp_all

/-- An int-checked parameter is numeric for the safety layer. -/
theorem coordOk_of_isInstInt (params : List (Str × JVal)) (k : Str)
    (h : isInstInt (dictGet? params k) = true) : coordOkAt params k = true := by
  unfold coordOkAt
  cases hg : dictGet? params k with
  | none => rfl
  | some v =>
    rw [hg] at h
    cases v <;> simp_all [isInstInt, isOkB, toNum]

/-- A click-family action accepted by validate_action_params has int
    (or bool) x and y values present. -/
theorem validate_click_family_ints (th : JVal) (raw : Str) (act : ActionType)
    (params : List (Str × JVal))
    (hact : act = ActionType.click ∨ act = .double_click ∨ act = .move)
    (hval : validate_action_params ⟨th, act, params, raw⟩ = .ok (true, none)) :
    isInstInt (dictGet? params xKey) = true ∧ isInstInt (dictGet? params yKey) = true := by
  unfold validate_action_params at hval
  dsimp only at hval
  cases hfm : firstMissing params (required_params act) with
  | some p =>
    rw [hfm] at hval
    simp at hval
  | none =>
    rw [hfm] at hval
    dsimp only at hval
    rw [if_pos hact] at hval
    by_cases hii : isInstInt (dictGet? params xKey) = true
        ∧ isInstInt (dictGet? params yKey) = true
    · exact hii
    · rw [if_neg hii] at hval
      simp at hval

/-- After validate_action_params accepts an action, the safety check on it
    never raises: the click family then has int coordinates, no parsed
    kind is named drag, and the other kinds have no coordinate checks. -/
theorem validate_action_never_raises_after_params (a : ParsedAction)
    (hval : validate_action_params a = .ok (true, none))
    (cfg : SafetyConfig) (w h : Int) (s : SafetyState) (now : PyFloat) :
    ∃ r, validate_action cfg w h s now a.action.name a.params = .ok r := by
  obtain ⟨th, act, params, raw⟩ := a
  apply (validate_action_parts cfg w h s now act.name params).1
  cases act with
  | click =>
    obtain ⟨h1, h2⟩ := validate_click_family_ints th raw _ params (Or.inl rfl) hval
    rw [show coordKeysOf (ActionType.click.name) = [xKey, yKey] from rfl]
    simp only [List.all_cons, List.all_nil, Bool.and_eq_true, and_true]
    exact ⟨coordOk_of_isInstInt params xKey h1, coordOk_of_isInstInt params yKey h2⟩
  | double_click =>
    obtain ⟨h1, h2⟩ := validate_click_family_ints th raw _ params (Or.inr (Or.inl rfl)) hval
    rw [show coordKeysOf (ActionType.double_click.name) = [xKey, yKey] from rfl]
    simp only [List.all_cons, List.all_nil, Bool.and_eq_true, and_true]
    exact ⟨coordOk_of_isInstInt params xKey h1, coordOk_of_isInstInt params yKey h2⟩
  | move =>
    obtain ⟨h1, h2⟩ := validate_click_family_ints th raw _ params (Or.inr (Or.inr rfl)) hval
    rw [show coordKeysOf (ActionType.move.name) = [xKey, yKey] from rfl]
    simp only [List.all_cons, List.all_nil, Bool.and_eq_true, and_true]
    exact ⟨coordOk_of_isInstInt params xKey h1, coordOk_of_isInstInt params yKey h2⟩
  | type => rfl
  | hotkey => rfl
  | scroll => rfl
  | wait => rfl
  | done => rfl

/-- One loop iteration whose response parses and validates to a done
    action returns immediately with COMPLETED and the params-declared
    success flag and result message (defaulted when absent). -/
theorem runBody_done (env : Env) (cfg : AgentConfig) (st : AgentState)
    (shot : Nat) (c : Str) (a : ParsedAction)
    (hcap : env.capture (st.step + 1) = .ok shot)
    (horc : env.oracle (st.step + 1) = .ok c)
    (hparse : parse_llm_response c = .ok a)
    (hval : validate_action_params a = .ok (true, none))
    (hdone : a.action = .done) :
    runBody env cfg st = .exit .completed
      { success := dictGetD a.params successKey (.jbool true),
        message := dictGetD a.params resultKey (.jstr msgTaskCompleted),
        total_steps := st.step + 1, actions_executed := st.actions.length,
        final_screenshot := some shot } := by
  simp only [runBody]
  try dsimp only
  rw [hcap]
  try dsimp only
  rw [horc]
  try dsimp only
  rw [hparse]
  try dsimp only
  rw [hval]
  try dsimp only
  rw [if_neg (not_not_intro rfl), if_pos hdone]

/-- A COMPLETED exit from one loop iteration can only come from the done
    branch, and fixes the result record. -/
theorem runBody_completed (env : Env) (cfg : AgentConfig) (st : AgentState)
    (r : AgentResult) (h : runBody env cfg st = .exit .completed r) :
    ∃ shot c a,
      env.capture (st.step + 1) = .ok shot ∧
      env.oracle (st.step + 1) = .ok c ∧
      parse_llm_response c = .ok a ∧
      validate_action_params a = .ok (true, none) ∧
      a.action = .done ∧
      r = { success := dictGetD a.params successKey (.jbool true),
            message := dictGetD a.params resultKey (.jstr msgTaskCompleted),
            total_steps := st.step + 1, actions_executed := st.actions.length,
            final_screenshot := some shot } := by
  simp only [runBody] at h
  try dsimp only at h
  cases hcap : env.capture (st.step + 1) with
  | error e => rw [hcap] at h; simp at h
  | ok shot =>
    rw [hcap] at h
    try dsimp only at h
    cases horc : env.oracle (st.step + 1) with
    | error e => rw [horc] at h; simp at h
    | ok c =>
      rw [horc] at h
      try dsimp only at h
      cases hparse : parse_llm_response c with
      | error pe => rw [hparse] at h; simp at h
      | ok a =>
        rw [hparse] at h
        try dsimp only at h
        cases hval : validate_action_params a with
        | error exc => rw [hval] at h; simp at h
        | ok vp =>
          rw [hval] at h
          obtain ⟨valid, verr⟩ := vp
          try dsimp only at h
          by_cases hvd : valid = true
          · rw [if_neg (not_not_intro hvd)] at h
            by_cases hdone : a.action = .done
            · rw [if_pos hdone] at h
              simp only [StepOut.exit.injEq] at h
              have hverr : verr = none := validate_true_shape a verr (by rw [← hvd]; exact hval)
              refine ⟨shot, c, a, rfl, rfl, hparse, ?_, hdone, h.2.symm⟩
              rw [hval, hvd, hverr]
            · rw [if_neg hdone] at h
              try dsimp only at h
              repeat' split at h
              all_goals simp at h
          · rw [if_pos hvd] at h
            simp at h

/-- One loop iteration whose response fails to parse appends the
    corrective assistant message and continues with the next step. -/
theorem runBody_parse_error (env : Env) (cfg : AgentConfig) (st : AgentState)
    (shot : Nat) (c : Str) (pe : PErr)
    (hcap : env.capture (st.step + 1) = .ok shot)
    (horc : env.oracle (st.step + 1) = .ok c)
    (hparse : parse_llm_response c = .error pe) :
    runBody env cfg st = .next (addAssistantMsg
      { st with
          step := st.step + 1,
          screenshots := add_screenshot defaultMaxScreenshots st.screenshots shot,
          finalScreenshot := some shot }
      (.parseErrorFeedback pe)) := by
  simp only [runBody]
  try dsimp only
  rw [hcap]
  try dsimp only
  rw [horc]
  try dsimp only
  rw [hparse]

/-- One loop iteration over a surviving response continues to the next
    step, advancing the step counter and leaving the stop flag clear when
    the observer never requests a stop. -/
theorem runBody_next_of_good (env : Env) (cfg : AgentConfig) (st : AgentState)
    (honstep : env.onStep = none ∨ ∃ f, env.onStep = some f ∧ ∀ k a, f k a = false)
    (hstop : st.stopRequested = false)
    (hcap : ∃ shot, env.capture (st.step + 1) = .ok shot)
    (hres : ∃ c, env.oracle (st.step + 1) = .ok c ∧ nonExitingResponse c) :
    ∃ st2, runBody env cfg st = .next st2 ∧ st2.step = st.step + 1 ∧
      st2.stopRequested = false := by
  obtain ⟨shot, hcap⟩ := hcap
  obtain ⟨c, horc, hgood⟩ := hres
  simp only [runBody]
  try dsimp only
  rw [hcap]
  try dsimp only
  rw [horc]
  try dsimp only
  rcases hgood with ⟨pe, hp⟩ | ⟨a, hp, hrest⟩
  · rw [hp]
    try dsimp only
    exact ⟨_, rfl, rfl, hstop⟩
  · rw [hp]
    try dsimp only
    rcases hrest with ⟨e, hv⟩ | ⟨hv, hnd⟩
    · rw [hv]
      try dsimp only
      rw [if_pos (by simp)]
      exact ⟨_, rfl, rfl, hstop⟩
    · rw [hv]
      try dsimp only
      rw [if_neg (not_not_intro rfl), if_neg hnd]
      try dsimp only
      obtain ⟨r, hr⟩ := validate_action_never_raises_after_params a hv cfg.safety
        env.width env.height _ _
      rw [hr]
      try dsimp only
      obtain ⟨⟨safe, serr⟩, s2⟩ := r
      by_cases hsafe : safe = true
      · rw [if_neg (not_not_intro hsafe)]
        rcases honstep with hns | ⟨f, hf, hfk⟩
        · rw [hns]
          exact ⟨_, rfl, rfl, hstop⟩
        · rw [hf]
          try dsimp only
          refine ⟨_, rfl, rfl, ?_⟩
          show (st.stopRequested || f (st.step + 1) a) = false
          rw [hstop, hfk]
          rfl
      · rw [if_pos hsafe]
        exact ⟨_, rfl, rfl, hstop⟩

/-- Running the loop over steps that all survive exhausts max_steps: the
    run ends FAILED with the max-steps message after exactly the allowed
    number of steps. -/
theorem runAux_max_steps (env : Env) (cfg : AgentConfig)
    (honstep : env.onStep = none ∨ ∃ f, env.onStep = some f ∧ ∀ k a, f k a = false) :
    ∀ (fuel : Nat) (st : AgentState),
      st.stopRequested = false →
      (∀ k, st.step < k → k ≤ st.step + fuel →
        (∃ shot, env.capture k = .ok shot) ∧
        (∃ c, env.oracle k = .ok c ∧ nonExitingResponse c)) →
      ∃ n fs, runAux env cfg fuel st =
        (.failed, { success := .jbool false, message := .jstr msgMaxSteps,
                    total_steps := st.step + fuel, actions_executed := n,
                    final_screenshot := fs }) := by
  intro fuel
  induction fuel with
  | zero =>
    intro st hstop _
    refine ⟨st.actions.length, st.finalScreenshot, ?_⟩
    simp only [runAux, loopExit, hstop, Bool.false_eq_true, if_false, mkResult,
      Nat.add_zero]
  | succ fuel ih =>
    intro st hstop hgood
    have hstep := hgood (st.step + 1) (by omega) (by omega)
    obtain ⟨st2, hbody, hstep2, hstop2⟩ :=
      runBody_next_of_good env cfg st honstep hstop hstep.1 hstep.2
    have hgood2 : ∀ k, st2.step < k → k ≤ st2.step + fuel →
        (∃ shot, env.capture k = .ok shot) ∧
        (∃ c, env.oracle k = .ok c ∧ nonExitingResponse c) := by
      intro k h1 h2
      rw [hstep2] at h1 h2
      exact hgood k (by omega) (by omega)
    obtain ⟨n, fs, hrun⟩ := ih st2 hstop2 hgood2
    refine ⟨n, fs, ?_⟩
    simp only [runAux, hstop, Bool.false_eq_true, if_false]
    rw [hbody]
    try dsimp only
    rw [hrun, hstep2]
    have harith : st.step + 1 + fuel = st.step + (fuel + 1) := by omega
    rw [harith]

/-- Claim C2: a done action exits the loop immediately with COMPLETED,
    success from the params success value defaulting to true, message from
    the params result value defaulting to the generic text; and COMPLETED
    is the only exit produced that way: every COMPLETED result comes from
    a step whose response parsed and validated to done and carries exactly
    those fields (other early exits are stops or failures). -/
theorem claim_C2 (env : Env) (cfg : AgentConfig) :
    (∀ (fuel : Nat) (st : AgentState) (shot : Nat) (c : Str) (a : ParsedAction),
      st.stopRequested = false →
      env.capture (st.step + 1) = .ok shot →
      env.oracle (st.step + 1) = .ok c →
      parse_llm_response c = .ok a →
      validate_action_params a = .ok (true, none) →
      a.action = .done →
      runAux env cfg (fuel + 1) st =
        (.completed,
         { success := dictGetD a.params successKey (.jbool true),
           message := dictGetD a.params resultKey (.jstr msgTaskCompleted),
           total_steps := st.step + 1, actions_executed := st.actions.length,
           final_screenshot := some shot }))
    ∧ (∀ (fuel : Nat) (st : AgentState) (res : AgentResult),
      runAux env cfg fuel st = (.completed, res) →
      ∃ shot c a,
        env.capture res.total_steps = .ok shot ∧
        env.oracle res.total_steps = .ok c ∧
        parse_llm_response c = .ok a ∧
        validate_action_params a = .ok (true, none) ∧
        a.action = .done ∧
        res.success = dictGetD a.params successKey (.jbool true) ∧
        res.message = dictGetD a.params resultKey (.jstr msgTaskCompleted)) := by
  constructor
  · intro fuel st shot c a hstop hcap horc hparse hval hdone
    simp only [runAux, hstop, Bool.false_eq_true, if_false]
    rw [runBody_done env cfg st shot c a hcap horc hparse hval hdone]
  · intro fuel
    induction fuel with
    | zero =>
      intro st res h
      simp only [runAux, loopExit] at h
      split at h <;> simp at h
    | succ fuel ih =>
      intro st res h
      simp only [runAux] at h
      split at h
      · unfold loopExit at h
        split at h <;> simp at h
      · cases hb : runBody env cfg st with
        | exit s r =>
          rw [hb] at h
          try dsimp only at h
          cases h
          obtain ⟨shot, c, a, h1, h2, h3, h4, h5, h6⟩ :=
            runBody_completed env cfg st res hb
          subst h6
          exact ⟨shot, c, a, h1, h2, h3, h4, h5, rfl, rfl⟩
        | next st2 =>
          rw [hb] at h
          try dsimp only at h
          exact ih st2 res h

/-- Witness for claim C2: the oracle answers done at the first step; the
    run completes at step one with the declared success and message, and
    the COMPLETED exit decomposes into a done step. -/
theorem claim_C2_witness :
    (runAux (envOf (fun _ => .ok doneJson)) {} (49 + 1) initState =
      (.completed,
       { success := .jbool true, message := .jstr "ok".toList,
         total_steps := 1, actions_executed := 0, final_screenshot := some 1 }))
    ∧ (∃ shot c a,
        (envOf (fun _ => .ok doneJson)).capture 1 = .ok shot ∧
        (envOf (fun _ => .ok doneJson)).oracle 1 = .ok c ∧
        parse_llm_response c = .ok a ∧
        validate_action_params a = .ok (true, none) ∧
        a.action = .done ∧
        JVal.jbool true = dictGetD a.params successKey (.jbool true) ∧
        JVal.jstr "ok".toList = dictGetD a.params resultKey (.jstr msgTaskCompleted)) := by
  constructor
  · exact (claim_C2 (envOf (fun _ => .ok doneJson)) {}).1 49 initState 1 doneJson
      parsedDone rfl rfl rfl rfl rfl rfl
  · have hb := (claim_C2 (envOf (fun _ => .ok doneJson)) {}).2 50 initState
      { success := .jbool true, message := .jstr "ok".toList,
        total_steps := 1, actions_executed := 0, final_screenshot := some 1 } rfl
    exact hb

/-- Claim C7: a ParseError never terminates the run: the loop appends the
    corrective assistant message describing the failure and proceeds to
    the next step (the inter-step delay is time-only); concretely, with an
    unparsable first response and a valid done second response, the run
    completes with total_steps 2 and success true. -/
theorem claim_C7 :
    (∀ (env : Env) (cfg : AgentConfig) (fuel : Nat) (st : AgentState)
      (shot : Nat) (c : Str) (pe : PErr),
      st.stopRequested = false →
      env.capture (st.step + 1) = .ok shot →
      env.oracle (st.step + 1) = .ok c →
      parse_llm_response c = .error pe →
      runAux env cfg (fuel + 1) st =
        runAux env cfg fuel
          (addAssistantMsg
            { st with
                step := st.step + 1,
                screenshots := add_screenshot defaultMaxScreenshots st.screenshots shot,
                finalScreenshot := some shot }
            (.parseErrorFeedback pe)))
    ∧ (run (envOf (fun k => if k = 1 then .ok "garbage".toList else .ok doneJson)) {}
        = (.completed,
           { success := .jbool true, message := .jstr "ok".toList,
             total_steps := 2, actions_executed := 0, final_screenshot := some 2 })) := by
  constructor
  · intro env cfg fuel st shot c pe hstop hcap horc hparse
    simp only [runAux, hstop, Bool.false_eq_true, if_false]
    rw [runBody_parse_error env cfg st shot c pe hcap horc hparse]
    try dsimp only
    rw [hstop]
  · rfl

/-- Witness for claim C7: the first conjunct applied at the concrete
    two-response environment, first step. -/
theorem claim_C7_witness :
    runAux (envOf (fun k => if k = 1 then .ok "garbage".toList else .ok doneJson)) {}
      (49 + 1) initState =
    runAux (envOf (fun k => if k = 1 then .ok "garbage".toList else .ok doneJson)) {}
      49
      (addAssistantMsg
        { initState with
            step := 1,
            screenshots := add_screenshot defaultMaxScreenshots initState.screenshots 1,
            finalScreenshot := some 1 }
        (.parseErrorFeedback (.noJsonFound "garbage".toList))) :=
  claim_C7.1 (envOf (fun k => if k = 1 then .ok "garbage".toList else .ok doneJson)) {}
    49 initState 1 "garbage".toList (.noJsonFound "garbage".toList) rfl rfl rfl rfl

/-- Claim C8 (amended): when every oracle call during the window returns a
    response the loop survives (parse failure, invalid params, or a valid
    non-done action), every capture succeeds, and no stop is requested,
    a run with max_steps = 3 exits the loop after exactly 3 steps with
    status FAILED, success false, total_steps 3, and the message
    Max steps reached (which contains the text Max steps).  As stated the
    claim is false: an oracle exception, or an unhandled validation error,
    ends the run early with an LLM-error or unexpected-error result. -/
theorem claim_C8 (env : Env) (cfg : AgentConfig)
    (hmax : cfg.max_steps = 3)
    (honstep : env.onStep = none ∨ ∃ f, env.onStep = some f ∧ ∀ k a, f k a = false)
    (hgood : ∀ k, 1 ≤ k → k ≤ 3 →
      (∃ shot, env.capture k = .ok shot) ∧
      (∃ c, env.oracle k = .ok c ∧ nonExitingResponse c)) :
    (∃ n fs, run env cfg =
      (.failed, { success := .jbool false, message := .jstr msgMaxSteps,
                  total_steps := 3, actions_executed := n, final_screenshot := fs }))
    ∧ ("Max steps".toList <:+: msgMaxSteps) := by
  refine ⟨?_, by decide⟩
  unfold run
  rw [hmax]
  have hs0 : initState.step = 0 := rfl
  have h0 := runAux_max_steps env cfg honstep 3 initState rfl ?_
  · obtain ⟨n, fs, hr⟩ := h0
    rw [hs0] at hr
    exact ⟨n, fs, hr⟩
  · intro k h1 h2
    rw [hs0] at h1 h2
    exact hgood k (by omega) (by omega)

/-- Witness for claim C8: the oracle always answers with the same valid
    click action and max_steps is 3. -/
theorem claim_C8_witness :
    (∃ n fs, run (envOf (fun _ => .ok clickJson)) { max_steps := 3 } =
      (.failed, { success := .jbool false, message := .jstr msgMaxSteps,
                  total_steps := 3, actions_executed := n, final_screenshot := fs }))
    ∧ ("Max steps".toList <:+: msgMaxSteps) :=
  claim_C8 (envOf (fun _ => .ok clickJson)) { max_steps := 3 } rfl (Or.inl rfl)
    (fun k h1 h2 =>
      ⟨⟨k, rfl⟩, ⟨clickJson, rfl,
        Or.inr ⟨parsedClick, rfl, Or.inr ⟨rfl, by decide⟩⟩⟩⟩)

/-- Counterexample to claim C8 as stated: an oracle that raises at the
    first step never returns a done action and no stop is requested, yet
    the run ends at step one with the LLM-error message, not after three
    steps with the max-steps message. -/
theorem claim_C8_counterexample :
    (run (envOf (fun _ => .error "boom".toList)) { max_steps := 3 }
      = (.failed,
         { success := .jbool false, message := .jstr (msgLLMError "boom".toList),
           total_steps := 1, actions_executed := 0, final_screenshot := some 1 }))
    ∧ (1 : Nat) ≠ 3
    ∧ ¬("Max steps".toList <:+: msgLLMError "boom".toList) :=
  ⟨rfl, by decide, by decide⟩
